import Mathlib

/-!
Verification development for the filtering DNS forwarder core
(`dnsforward/dnsforward.go`) and its worker side-effect hook
(`worker/worker.go`).

The Go code is shallowly embedded: DNS messages, filter verdicts and the
per-request pipeline context become Lean structures; the six pipeline
stages become pure functions threading the context; the external
collaborators (filter engine, upstream proxy, query log, stats sink)
become oracle functions carried in an environment record.  Machine
integers of the source are modelled as `Nat`/`Int` (no arithmetic in the
embedded code overflows), fallible Go calls return `Except String`.
-/

namespace DnsFwd

/-! ## DNS wire constants (miekg/dns numeric record types and rcodes) -/

def TypeA : Nat := 1
def TypeCNAME : Nat := 5
def TypeSOA : Nat := 6
def TypePTR : Nat := 12
def TypeAAAA : Nat := 28
def TypeOPT : Nat := 41
def TypeRRSIG : Nat := 46
def TypeANY : Nat := 255
def ClassINET : Nat := 1

def RcodeSuccess : Nat := 0
def RcodeServerFailure : Nat := 2
def RcodeNameError : Nat := 3

/-! ## DNS messages (the fragment of `dns.Msg` the core reads or writes) -/

structure Question where
  name : String
  qtype : Nat
  qclass : Nat
deriving Repr, DecidableEq

structure RRHeader where
  name : String
  rrtype : Nat
  rrclass : Nat
  ttl : Nat
deriving Repr, DecidableEq

/-- Resource records.  IP addresses are byte lists, as Go's `net.IP` is a
byte slice.  The OPT pseudo-record carries only the fields the core
consults (`UDPSize`, the DO bit). -/
inductive RR where
  | a (hdr : RRHeader) (ip : List Nat)
  | aaaa (hdr : RRHeader) (ip : List Nat)
  | cname (hdr : RRHeader) (target : String)
  | ptr (hdr : RRHeader) (ptrName : String)
  | soa (hdr : RRHeader) (ns mbox : String) (serial refresh retryIv expire minttl : Nat)
  | rrsig (hdr : RRHeader)
  | optRR (udpSize : Nat) (doFlag : Bool)
  | generic (hdr : RRHeader)
deriving Repr, DecidableEq

/-- `answer.Header().Name = n` — rewriting the owner name of a record
(the OPT pseudo-record has no owner name the core ever rewrites). -/
def RR.setName (n : String) : RR → RR
  | .a hdr ip => .a { hdr with name := n } ip
  | .aaaa hdr ip => .aaaa { hdr with name := n } ip
  | .cname hdr t => .cname { hdr with name := n } t
  | .ptr hdr p => .ptr { hdr with name := n } p
  | .soa hdr ns mb s r rt e m => .soa { hdr with name := n } ns mb s r rt e m
  | .rrsig hdr => .rrsig { hdr with name := n }
  | .optRR sz d => .optRR sz d
  | .generic hdr => .generic { hdr with name := n }

def RR.isRRSIG : RR → Bool
  | .rrsig _ => true
  | _ => false

structure Msg where
  id : Nat
  response : Bool
  opcode : Nat
  rcode : Nat
  recursionDesired : Bool
  recursionAvailable : Bool
  compress : Bool
  question : List Question
  answer : List RR
  ns : List RR
  extra : List RR
deriving Repr, DecidableEq

def emptyMsg : Msg :=
  { id := 0, response := false, opcode := 0, rcode := 0,
    recursionDesired := false, recursionAvailable := false, compress := false,
    question := [], answer := [], ns := [], extra := [] }

/-- `dns.Msg.SetReply`: fresh reply mirroring id, opcode, recursion-desired
and the question section of the request. -/
def Msg.setReply (req : Msg) : Msg :=
  { emptyMsg with
    id := req.id, response := true, opcode := req.opcode,
    recursionDesired := req.recursionDesired,
    question := req.question, rcode := RcodeSuccess }

/-- `dns.Msg.SetRcode`: `SetReply` with an explicit response code. -/
def Msg.setRcode (req : Msg) (code : Nat) : Msg :=
  { req.setReply with rcode := code }

/-- `dns.Msg.IsEdns0`: the first OPT pseudo-record of the additional
section, as `(udp size, DO flag)`. -/
def Msg.isEdns0 (m : Msg) : Option (Nat × Bool) :=
  m.extra.findSome? fun rr =>
    match rr with
    | .optRR sz d => some (sz, d)
    | _ => none

/-- `dns.Msg.SetEdns0`: append an OPT record to the additional section. -/
def Msg.setEdns0 (m : Msg) (sz : Nat) (d : Bool) : Msg :=
  { m with extra := m.extra ++ [RR.optRR sz d] }

def setDoFirst : List RR → List RR
  | [] => []
  | .optRR sz _ :: rest => .optRR sz true :: rest
  | rr :: rest => rr :: setDoFirst rest

/-- `opt.SetDo(true)` on the OPT record found by `IsEdns0` (the record is
mutated in place in Go; here the first OPT of the list is replaced). -/
def Msg.setOptDo (m : Msg) : Msg :=
  { m with extra := setDoFirst m.extra }

/-- `dns.Fqdn`. -/
def fqdn (s : String) : String := if s.endsWith "." then s else s ++ "."

/-- `strings.TrimSuffix`. -/
def trimSuffix (s sfx : String) : String :=
  if s.endsWith sfx then s.dropRight sfx.length else s

/-- `d.Req.Question[0].Name`.  Go indexes `Question[0]` unconditionally
(and would panic on an empty question section); the embedding totalises
with `""` and theorems about the pipeline assume a non-empty question. -/
def q0name (m : Msg) : String :=
  match m.question with
  | [] => ""
  | q :: _ => q.name

/-- `d.Req.Question[0].Qtype`, totalised like `q0name`. -/
def q0type (m : Msg) : Nat :=
  match m.question with
  | [] => 0
  | q :: _ => q.qtype

/-- `m.Question[0] = q`: replace the first question wholesale. -/
def Msg.setQ0 (m : Msg) (q : Question) : Msg :=
  { m with question :=
      match m.question with
      | [] => []
      | _ :: rest => q :: rest }

/-- `m.Question[0].Name = n`: rewrite only the first question's name. -/
def Msg.setQ0Name (m : Msg) (n : String) : Msg :=
  { m with question :=
      match m.question with
      | [] => []
      | q :: rest => { q with name := n } :: rest }

/-- `net.IP.To4`: the 4-byte form of an IP, available for 4-byte slices
and for 16-byte slices with the v4-in-v6 prefix. -/
def ipTo4 (ip : List Nat) : Option (List Nat) :=
  if ip.length = 4 then some ip
  else if ip.length = 16 ∧ ip.take 12 = [0, 0, 0, 0, 0, 0, 0, 0, 0, 0, 0xff, 0xff] then
    some (ip.drop 12)
  else none

def ipv6zero : List Nat := List.replicate 16 0

/-- Dotted-decimal text of a 4-byte IP (`net.IP.String` for IPv4). -/
def ipv4String (ip : List Nat) : String :=
  String.intercalate "." (ip.map toString)

/-- `net.IP.String`.  The exact textual form for IPv6 addresses is
internal to the Go standard library and is only ever consumed by the
`CheckHostRules` oracle, so a canonical colon-joined form stands in for
it; IPv4 (and v4-in-v6) addresses use the true dotted-decimal form. -/
def ipString (ip : List Nat) : String :=
  match ipTo4 ip with
  | some ip4 => ipv4String ip4
  | none => String.intercalate ":" (ip.map toString)

/-! ## Filter verdicts (`dnsfilter.Result`) -/

/-- The closed enumeration of verdict reasons of the filter engine. -/
inductive Reason where
  | notFilteredNotFound
  | notFilteredWhiteList
  | filteredBlackList
  | filteredSafeBrowsing
  | filteredParental
  | filteredSafeSearch
  | filteredInvalid
  | filteredBlockedService
  | reasonRewrite
  | rewriteEtcHosts
deriving Repr, DecidableEq

structure FilterResult where
  isFiltered : Bool
  reason : Reason
  rule : String
  ip : Option (List Nat)
  ipList : List (List Nat)
  canonName : String
  reverseHost : String
  filterID : Int
deriving Repr, DecidableEq

/-- The Go zero value `dnsfilter.Result{}`. -/
def FilterResult.empty : FilterResult :=
  { isFiltered := false, reason := .notFilteredNotFound, rule := "",
    ip := none, ipList := [], canonName := "", reverseHost := "", filterID := 0 }

/-! ## Server configuration (the `ServerConfig` fields the pipeline reads) -/

structure ServerConf where
  protectionEnabled : Bool
  blockingMode : String
  blockingIPAddrv4 : Option (List Nat)
  blockingIPAddrv6 : Option (List Nat)
  blockedResponseTTL : Nat
  aaaaDisabled : Bool
  refuseAny : Bool
  enableDNSSEC : Bool
  safeBrowsingBlockHost : String
  parentalBlockHost : String
deriving Repr, DecidableEq

/-- Modelled from the spec: `defaultValues.BlockedResponseTTL`, the
package-level default substituted when the configured TTL is zero, is
declared outside the provided sources; the spec suggests 3600. -/
def defaultBlockedResponseTTL : Nat := 3600

/-- Network addresses, as far as `ipFromAddr`/`getIP` discriminate them. -/
inductive NetAddr where
  | udp (ip : String)
  | tcp (ip : String)
  | otherAddr
deriving Repr, DecidableEq

/-- `ipFromAddr`: the textual client IP of a UDP or TCP address, `""`
otherwise (`d.Addr` may also be nil, modelled by `none`). -/
def ipFromAddr : Option NetAddr → String
  | some (.udp ip) => ip
  | some (.tcp ip) => ip
  | _ => ""

/-- The environment of external collaborators the pipeline calls into:
the filter engine (`CheckHost`, `CheckHostRules`), the main proxy
(`Resolve`), the same proxy used for block-host substitution lookups,
`net.ParseIP`, and the presence flags of the nullable collaborators
(`s.dnsFilter`, `s.queryLog`, `s.stats`). -/
structure Env where
  conf : ServerConf
  hasFilter : Bool
  hasQueryLog : Bool
  hasStats : Bool
  checkHost : String → Nat → Except String FilterResult
  checkHostRules : String → Nat → Except String FilterResult
  resolve : Msg → Except String Msg
  parseIP : String → Option (List Nat)

/-! ## Response builders -/

/-- `makeResponse`: `SetReply` plus `RecursionAvailable` and `Compress`. -/
def makeResponse (req : Msg) : Msg :=
  { req.setReply with recursionAvailable := true, compress := true }

/-- `genSOA`: the synthetic negative-caching SOA. -/
def genSOA (conf : ServerConf) (request : Msg) : List RR :=
  let zone :=
    match request.question with
    | [] => ""
    | q :: _ => q.name
  let ttl :=
    if conf.blockedResponseTTL = 0 then defaultBlockedResponseTTL
    else conf.blockedResponseTTL
  let mbox :=
    if 0 < zone.length ∧ zone.front ≠ '.' then "hostmaster." ++ zone
    else "hostmaster."
  [RR.soa { name := zone, rrtype := TypeSOA, rrclass := ClassINET, ttl := ttl }
    "fake-for-negative-caching.adguard.com." mbox 100500 1800 900 604800 86400]

def genNXDomain (conf : ServerConf) (request : Msg) : Msg :=
  { request.setRcode RcodeNameError with
    recursionAvailable := true, ns := genSOA conf request }

def genServerFailure (request : Msg) : Msg :=
  { request.setRcode RcodeServerFailure with recursionAvailable := true }

def genAAnswer (conf : ServerConf) (req : Msg) (ip : List Nat) : RR :=
  .a { name := q0name req, rrtype := TypeA, rrclass := ClassINET,
       ttl := conf.blockedResponseTTL } ip

def genAAAAAnswer (conf : ServerConf) (req : Msg) (ip : List Nat) : RR :=
  .aaaa { name := q0name req, rrtype := TypeAAAA, rrclass := ClassINET,
          ttl := conf.blockedResponseTTL } ip

def genCNAMEAnswer (conf : ServerConf) (req : Msg) (cname : String) : RR :=
  .cname { name := q0name req, rrtype := TypeCNAME, rrclass := ClassINET,
           ttl := conf.blockedResponseTTL } (fqdn cname)

def genARecord (conf : ServerConf) (request : Msg) (ip : List Nat) : Msg :=
  let resp := makeResponse request
  { resp with answer := resp.answer ++ [genAAnswer conf request ip] }

def genAAAARecord (conf : ServerConf) (request : Msg) (ip : List Nat) : Msg :=
  let resp := makeResponse request
  { resp with answer := resp.answer ++ [genAAAAAnswer conf request ip] }

/-- `genResponseWithIP`: A for v4-capable addresses under an A question,
AAAA for true v6 addresses under an AAAA question, else an empty reply. -/
def genResponseWithIP (conf : ServerConf) (req : Msg) (ip : List Nat) : Msg :=
  if q0type req = TypeA ∧ (ipTo4 ip).isSome then
    genARecord conf req ((ipTo4 ip).getD ip)
  else if q0type req = TypeAAAA ∧ ip.length = 16 ∧ (ipTo4 ip).isNone then
    genAAAARecord conf req ip
  else makeResponse req

/-- `genBlockedHost`: substitution of the blocked name by a block host.
The second component records whether the proxy `Resolve` was invoked for
the substitution lookup. -/
def genBlockedHost (env : Env) (request : Msg) (newAddr : String) : Msg × Bool :=
  match env.parseIP newAddr with
  | some ip => (genResponseWithIP env.conf request ip, false)
  | none =>
    let replReq : Msg :=
      { emptyMsg with
          recursionDesired := true,
          question := [{ name := fqdn newAddr, qtype := q0type request,
                         qclass := ClassINET }] }
    match env.resolve replReq with
    | .error _ => (genServerFailure request, true)
    | .ok newRes =>
      let resp := makeResponse request
      ({ resp with answer :=
          resp.answer ++ newRes.answer.map (RR.setName (q0name request)) }, true)

/-- `genDNSFilterMessage`: block-mode dispatch on the filter verdict.
The Bool component records whether an internal `Resolve` happened. -/
def genDNSFilterMessage (env : Env) (req : Msg) (result : FilterResult) : Msg × Bool :=
  if q0type req ≠ TypeA ∧ q0type req ≠ TypeAAAA then
    (genNXDomain env.conf req, false)
  else
    match result.reason with
    | .filteredSafeBrowsing => genBlockedHost env req env.conf.safeBrowsingBlockHost
    | .filteredParental => genBlockedHost env req env.conf.parentalBlockHost
    | _ =>
      if result.reason = .filteredSafeSearch ∧ result.ip.isSome then
        (genResponseWithIP env.conf req (result.ip.getD []), false)
      else
        -- the trailing default of the Go function, reached when no
        -- blocking-mode branch returned
        let defBlock : Msg × Bool :=
          match result.ip with
          | some ip => (genResponseWithIP env.conf req ip, false)
          | none => (genNXDomain env.conf req, false)
        if env.conf.blockingMode = "null_ip" then
          if q0type req = TypeA then (genARecord env.conf req [0, 0, 0, 0], false)
          else if q0type req = TypeAAAA then (genAAAARecord env.conf req ipv6zero, false)
          else defBlock
        else if env.conf.blockingMode = "custom_ip" then
          if q0type req = TypeA then
            (genARecord env.conf req (env.conf.blockingIPAddrv4.getD []), false)
          else if q0type req = TypeAAAA then
            (genAAAARecord env.conf req (env.conf.blockingIPAddrv6.getD []), false)
          else defBlock
        else if env.conf.blockingMode = "nxdomain" then
          (genNXDomain env.conf req, false)
        else defBlock

/-! ## The per-request pipeline context (`dnsContext` plus the fields of
`proxy.DNSContext` the stages touch).  `upstreamCalled`, `logEvents`,
`statEvents` and `hookEvents` instrument the calls the Go code makes on
the proxy, the query log, the stats sink and the worker hook. -/

/-- One `querylog.AddParams` push. -/
structure LogEvent where
  question : Msg
  answer : Option Msg
  origAnswer : Option Msg
  result : FilterResult
deriving Repr, DecidableEq

/-- `stats.R*` result classes (external constants; distinct numerals). -/
def RNotFiltered : Nat := 0
def RFiltered : Nat := 1
def RSafeBrowsing : Nat := 2
def RSafeSearch : Nat := 3
def RParental : Nat := 4

/-- One `stats.Entry` update (the elapsed-time field is real time and is
outside the model). -/
structure StatEvent where
  domain : String
  client : String
  resultClass : Nat
deriving Repr, DecidableEq

structure Ctx where
  req : Msg
  res : Option Msg
  addr : Option NetAddr
  result : FilterResult
  origResp : Option Msg
  origQuestion : Question
  errMsg : Option String
  protectionEnabled : Bool
  responseFromUpstream : Bool
  origReqDNSSEC : Bool
  upstreamCalled : Bool
  logEvents : List LogEvent
  statEvents : List StatEvent
  hookEvents : List (FilterResult × Option Msg)
deriving Repr

/-- The tri-valued stage control token (`resultDone | resultFinish |
resultError`). -/
inductive StageResult where
  | done
  | finish
  | error
deriving Repr, DecidableEq

/-- How a full pipeline run ended: all six stages ran (`completed`), a
stage returned Finish (`early`), or a stage returned Error (`failed`). -/
inductive RunExit where
  | completed
  | early
  | failed
deriving Repr, DecidableEq

/-- The context built at the top of `handleDNSRequest`. -/
def initCtx (req : Msg) (addr : Option NetAddr) : Ctx :=
  { req := req, res := none, addr := addr, result := FilterResult.empty,
    origResp := none, origQuestion := { name := "", qtype := 0, qclass := 0 },
    errMsg := none, protectionEnabled := false, responseFromUpstream := false,
    origReqDNSSEC := false, upstreamCalled := false,
    logEvents := [], statEvents := [], hookEvents := [] }

/-- Modelled from the spec: `proxy.CheckDisabledAAAARequest` of the
external dnsproxy library synthesizes "an empty AAAA response (no
error)" for the disabled-AAAA gate. -/
def checkDisabledAAAAResponse (req : Msg) : Msg := req.setReply

/-- Stage 1, `processInitial`.  The `OnDNSRequest` observer callback has
no effect on the modelled state. -/
def processInitial (env : Env) (ctx : Ctx) : Ctx × StageResult :=
  if env.conf.aaaaDisabled ∧ q0type ctx.req = TypeAAAA then
    ({ ctx with res := some (checkDisabledAAAAResponse ctx.req) }, .finish)
  else if (q0type ctx.req = TypeA ∨ q0type ctx.req = TypeAAAA) ∧
      q0name ctx.req = "use-application-dns.net." then
    ({ ctx with res := some (genNXDomain env.conf ctx.req) }, .finish)
  else (ctx, .done)

/-- `filterDNSRequest`: run `CheckHost` and either synthesize a filtered
response, a rewrite response, a canonical-name question rewrite, or a
PTR response.  Client filtering settings are folded into the `checkHost`
oracle. -/
def filterDNSRequest (env : Env) (ctx : Ctx) : Except String (FilterResult × Ctx) :=
  let req := ctx.req
  let host := trimSuffix (q0name req) "."
  match env.checkHost host (q0type req) with
  | .error e =>
    .error ("dnsfilter failed to check host " ++ host ++ ": " ++ e)
  | .ok res =>
    if res.isFiltered then
      let (m, used) := genDNSFilterMessage env req res
      .ok (res, { ctx with
        res := some m, upstreamCalled := ctx.upstreamCalled || used })
    else if (res.reason = .reasonRewrite ∨ res.reason = .rewriteEtcHosts) ∧
        res.ipList ≠ [] then
      let resp := makeResponse req
      let (baseAnswer, nm) :=
        if res.canonName ≠ "" then
          (resp.answer ++ [genCNAMEAnswer env.conf req res.canonName], res.canonName)
        else (resp.answer, host)
      let ipAnswers := res.ipList.filterMap fun ip =>
        match ipTo4 ip with
        | some ip4 =>
          if q0type req = TypeA then
            some ((genAAnswer env.conf req ip4).setName (fqdn nm))
          else none
        | none =>
          if q0type req = TypeAAAA then
            some ((genAAAAAnswer env.conf req ip).setName (fqdn nm))
          else none
      .ok (res, { ctx with res := some { resp with answer := baseAnswer ++ ipAnswers } })
    else if res.reason = .reasonRewrite ∧ res.canonName ≠ "" then
      .ok (res, { ctx with
        origQuestion :=
          match req.question with
          | [] => { name := "", qtype := 0, qclass := 0 }
          | q :: _ => q,
        req := req.setQ0Name (fqdn res.canonName) })
    else if res.reason = .rewriteEtcHosts ∧ res.reverseHost ≠ "" then
      let resp := makeResponse req
      let ptrRR : RR := .ptr
        { name := q0name req, rrtype := TypePTR, rrclass := ClassINET,
          ttl := env.conf.blockedResponseTTL } res.reverseHost
      .ok (res, { ctx with res := some { resp with answer := resp.answer ++ [ptrRR] } })
    else .ok (res, ctx)

/-- Stage 2, `processFilteringBeforeRequest`. -/
def processFilteringBeforeRequest (env : Env) (ctx : Ctx) : Ctx × StageResult :=
  let pe := env.conf.protectionEnabled && env.hasFilter
  let ctx := { ctx with protectionEnabled := pe }
  if pe then
    match filterDNSRequest env ctx with
    | .error e => ({ ctx with errMsg := some e }, .error)
    | .ok (res, ctx') => ({ ctx' with result := res }, .done)
  else (ctx, .done)

/-- Stage 3, `processUpstream`.  Per-client upstream selection
(`GetUpstreamsByClient`) only picks which upstream servers the proxy
uses and is folded into the `resolve` oracle. -/
def processUpstream (env : Env) (ctx : Ctx) : Ctx × StageResult :=
  if ctx.res.isSome then (ctx, .done)
  else
    let ctx :=
      if env.conf.enableDNSSEC then
        match ctx.req.isEdns0 with
        | none => { ctx with req := ctx.req.setEdns0 4096 true }
        | some (_, d) =>
          if !d then { ctx with req := ctx.req.setOptDo }
          else { ctx with origReqDNSSEC := true }
      else ctx
    match env.resolve ctx.req with
    | .error e => ({ ctx with errMsg := some e, upstreamCalled := true }, .error)
    | .ok resp =>
      ({ ctx with
          res := some resp,
          responseFromUpstream := true,
          upstreamCalled := true }, .done)

/-- Order-preserving removal of RRSIG records (the Go loops rebuilding
`Answer`/`Ns` without the RRSIG entries). -/
def stripRRSIG (rrs : List RR) : List RR :=
  rrs.filter fun rr => !rr.isRRSIG

/-- Stage 4, `processDNSSECAfterResponse`. -/
def processDNSSECAfterResponse (env : Env) (ctx : Ctx) : Ctx × StageResult :=
  if ¬ctx.responseFromUpstream ∨ ¬env.conf.enableDNSSEC then (ctx, .done)
  else
    let r := ctx.res.getD emptyMsg
    let optResp := r.isEdns0
    if ¬ctx.origReqDNSSEC ∧ optResp.isSome ∧ (optResp.map Prod.snd).getD false then
      (ctx, .done)
    else
      let r' := { r with answer := stripRRSIG r.answer, ns := stripRRSIG r.ns }
      ({ ctx with res := some r' }, .done)

/-- The host string a response record contributes to response filtering:
stripped CNAME targets, textual A/AAAA addresses. -/
def answerHost : RR → Option String
  | .cname _ target => some (trimSuffix target ".")
  | .a _ ip => some (ipv4String ip)
  | .aaaa _ ip => some (ipString ip)
  | _ => none

/-- The scanning loop of `filterDNSResponse`: first filtered match
replaces the response and returns its verdict. -/
def filterDNSResponseGo (env : Env) (ctx : Ctx) :
    List RR → Except String (Option FilterResult × Ctx)
  | [] => .ok (none, ctx)
  | rr :: rest =>
    match answerHost rr with
    | none => filterDNSResponseGo env ctx rest
    | some host =>
      if ¬env.conf.protectionEnabled ∨ ¬env.hasFilter then
        filterDNSResponseGo env ctx rest
      else
        match env.checkHostRules host (q0type ctx.req) with
        | .error e => .error e
        | .ok r =>
          if r.isFiltered then
            let (m, used) := genDNSFilterMessage env ctx.req r
            .ok (some r, { ctx with
              res := some m, upstreamCalled := ctx.upstreamCalled || used })
          else filterDNSResponseGo env ctx rest

def filterDNSResponse (env : Env) (ctx : Ctx) :
    Except String (Option FilterResult × Ctx) :=
  filterDNSResponseGo env ctx (ctx.res.getD emptyMsg).answer

/-- Stage 5, `processFilteringAfterResponse`. -/
def processFilteringAfterResponse (env : Env) (ctx : Ctx) : Ctx × StageResult :=
  match ctx.result.reason with
  | .reasonRewrite =>
    if ctx.result.canonName = "" then (ctx, .done)
    else
      let req' := ctx.req.setQ0 ctx.origQuestion
      let r := (ctx.res.getD emptyMsg).setQ0 ctx.origQuestion
      let r :=
        if r.answer ≠ [] then
          { r with answer :=
              genCNAMEAnswer env.conf req' ctx.result.canonName :: r.answer }
        else r
      ({ ctx with req := req', res := some r }, .done)
  | .notFilteredWhiteList => (ctx, .done)
  | _ =>
    if ¬ctx.protectionEnabled ∨ ¬ctx.responseFromUpstream then (ctx, .done)
    else
      let origResp2 := ctx.res
      match filterDNSResponse env ctx with
      | .error e => ({ ctx with errMsg := some e }, .error)
      | .ok (some r, ctx') => ({ ctx' with result := r, origResp := origResp2 }, .done)
      | .ok (none, ctx') => ({ ctx' with result := FilterResult.empty }, .done)

/-- `updateStats`: the `stats.Entry` pushed to the stats sink, `none`
when `s.stats` is nil. -/
def updateStatsEntry (env : Env) (ctx : Ctx) : Option StatEvent :=
  if ¬env.hasStats then none
  else
    let dom := (q0name ctx.req).toLower
    let dom := dom.dropRight 1
    let cl := ipFromAddr ctx.addr
    let rc :=
      match ctx.result.reason with
      | .filteredSafeBrowsing => RSafeBrowsing
      | .filteredParental => RParental
      | .filteredSafeSearch => RSafeSearch
      | .filteredBlackList => RFiltered
      | .filteredInvalid => RFiltered
      | .filteredBlockedService => RFiltered
      | _ => RNotFiltered
    some { domain := dom, client := cl, resultClass := rc }

/-- Stage 6, `processQueryLogsAndStats`.  The query-log push and the
worker hook share one guard; the stats update is unconditional (modulo a
nil stats sink). -/
def processQueryLogsAndStats (env : Env) (ctx : Ctx) : Ctx × StageResult :=
  let shouldLog :=
    if 1 ≤ ctx.req.question.length ∧ q0type ctx.req = TypeANY ∧
        env.conf.refuseAny then false
    else true
  let ctx :=
    if shouldLog ∧ env.hasQueryLog then
      { ctx with
        logEvents := ctx.logEvents ++
          [{ question := ctx.req, answer := ctx.res,
             origAnswer := ctx.origResp, result := ctx.result }],
        hookEvents := ctx.hookEvents ++ [(ctx.result, ctx.res)] }
    else ctx
  let ctx :=
    match updateStatsEntry env ctx with
    | some e => { ctx with statEvents := ctx.statEvents ++ [e] }
    | none => ctx
  (ctx, .done)

/-- The ordered stage list of `handleDNSRequest`. -/
def stages : List (Env → Ctx → Ctx × StageResult) :=
  [processInitial, processFilteringBeforeRequest, processUpstream,
   processDNSSECAfterResponse, processFilteringAfterResponse,
   processQueryLogsAndStats]

def runStages (env : Env) : List (Env → Ctx → Ctx × StageResult) → Ctx → Ctx × RunExit
  | [], ctx => (ctx, .completed)
  | st :: rest, ctx =>
    match st env ctx with
    | (ctx', .done) => runStages env rest ctx'
    | (ctx', .finish) => (ctx', .early)
    | (ctx', .error) => (ctx', .failed)

/-- `handleDNSRequest`: run the six stages, then mark the response
compressed — the compression fixup is reached only on the normal exit of
the stage loop. -/
def handleDNSRequest (env : Env) (req : Msg) (addr : Option NetAddr) : Ctx × RunExit :=
  match runStages env stages (initCtx req addr) with
  | (ctx, .completed) =>
    (match ctx.res with
     | some r => ({ ctx with res := some { r with compress := true } }, .completed)
     | none => (ctx, .completed))
  | (ctx, ex) => (ctx, ex)

/-- The DO bit the client's request carries (false when there is no OPT
record), the condition under which `origReqDNSSEC` is set in stage 3. -/
def reqDO (m : Msg) : Bool :=
  match m.isEdns0 with
  | some (_, d) => d
  | none => false

/-- The response transformation stage 4 applies to an upstream response:
identity unless `EnableDNSSEC`, identity when the skip guard of
`processDNSSECAfterResponse` fires, otherwise RRSIG removal. -/
def scrubIfNeeded (enable origReq : Bool) (m : Msg) : Msg :=
  if ¬enable then m
  else if ¬origReq ∧ m.isEdns0.isSome ∧ (m.isEdns0.map Prod.snd).getD false then m
  else { m with answer := stripRRSIG m.answer, ns := stripRRSIG m.ns }

/-- The pre-pipeline access gate `beforeRequestHandler`.  The access
controller's precompiled sets are behind its two membership tests,
carried here as oracle functions. -/
structure AccessCtx where
  isBlockedIP : String → Bool
  isBlockedDomain : String → Bool

def beforeRequestHandler (acc : AccessCtx) (addr : Option NetAddr) (req : Msg) : Bool :=
  let ip := ipFromAddr addr
  if acc.isBlockedIP ip then false
  else
    if req.question.length = 1 then
      let host := trimSuffix (q0name req) "."
      if acc.isBlockedDomain host then false
      else true
    else true

/-! ## Server lifecycle (`Stop`/`Start`/`Prepare`/`Reconfigure`) -/

/-- The behaviour of a `proxy.Proxy` instance, as the lifecycle code
observes it: whether its `Stop` and `Start` calls fail, and with what
message.  The proxy itself is an external collaborator. -/
structure ProxyBehavior where
  stopErr : Option String
  startErr : Option String
deriving Repr, DecidableEq

/-- The server state the lifecycle methods read and write: the primary
proxy handle and the running flag. -/
structure SrvState where
  dnsProxy : Option ProxyBehavior
  isRunning : Bool
deriving Repr, DecidableEq

/-- `errorx.Decorate(err, msg)`: a decorated error message. -/
def decorateErr (msg cause : String) : String := msg ++ ", cause: " ++ cause

/-- `stopInternal`: stop the proxy if present; only on success is the
running flag cleared (an early return on a failing `Stop` leaves it). -/
def stopInternal (s : SrvState) : Except String SrvState :=
  match s.dnsProxy with
  | some p =>
    match p.stopErr with
    | some e => .error (decorateErr "could not stop the DNS server properly" e)
    | none => .ok { s with isRunning := false }
  | none => .ok { s with isRunning := false }

/-- `startInternal`: start the proxy; the running flag is set only on
success.  A nil proxy would be a nil dereference in Go (unreachable
after a successful `Prepare`); it is modelled as an error. -/
def startInternal (s : SrvState) : Except String SrvState :=
  match s.dnsProxy with
  | some p =>
    match p.startErr with
    | some e => .error e
    | none => .ok { s with isRunning := true }
  | none => .error "nil dnsProxy"

/-- The outcome `Prepare` obtains from its collaborators: an error from
any of the validation / upstream-settings / proxy-config / access-init
steps (all outside the modelled state), and the proxy instance
constructed at the last step on success. -/
structure PrepInput where
  prepErr : Option String
  newProxy : ProxyBehavior
deriving Repr, DecidableEq

/-- `Prepare`: on any step's failure the error is returned with the
running flag untouched; only the final step replaces `s.dnsProxy`.
The configuration bookkeeping of steps 1-6 does not touch the
lifecycle-relevant fields modelled in `SrvState`. -/
def prepare (s : SrvState) (inp : PrepInput) : Except String SrvState :=
  match inp.prepErr with
  | some e => .error e
  | none => .ok { s with dnsProxy := some inp.newProxy }

/-- `Reconfigure`: Stop → (100 ms sleep, no modelled effect) → Prepare →
Start, each failure decorated and returned together with the state the
server was left in. -/
def reconfigure (s : SrvState) (inp : PrepInput) : Option String × SrvState :=
  match stopInternal s with
  | .error e => (some (decorateErr "could not reconfigure the server" e), s)
  | .ok s1 =>
    match prepare s1 inp with
    | .error e => (some (decorateErr "could not reconfigure the server" e), s1)
    | .ok s2 =>
      match startInternal s2 with
      | .error e => (some (decorateErr "could not reconfigure the server" e), s2)
      | .ok s3 => (none, s3)

/-- `IsRunning`. -/
def isRunningOf (s : SrvState) : Bool := s.isRunning

/-! ## The worker side-effect hook (`worker.ProcessDNSResult`) -/

/-- The loop of `ProcessDNSResult` over the answer records: A records
whose textual address misses the cache trigger an `nft` insertion; on
command success the address is cached.  Returns the list of addresses
for which an insertion command was issued, and the final cache. -/
def processDNSAnswers (nftOK : String → Bool) :
    List RR → List String → List String × List String
  | [], cache => ([], cache)
  | rr :: rest, cache =>
    match rr with
    | .a _ ip =>
      let s := ipv4String ip
      if s ∈ cache then processDNSAnswers nftOK rest cache
      else
        let cache' := if nftOK s then s :: cache else cache
        let (ins, cacheF) := processDNSAnswers nftOK rest cache'
        (s :: ins, cacheF)
    | _ => processDNSAnswers nftOK rest cache

/-- `ProcessDNSResult`: the early returns on an empty answer section, a
filtered or non-whitelist verdict, and a system filter list, followed by
the per-answer insertion loop.  `nftOK` models the external `nft`
command's success; command failures are logged and never surfaced. -/
def processDNSResult (nftOK : String → Bool) (result : FilterResult) (resp : Msg)
    (cache : List String) : List String × List String :=
  if resp.answer = [] then ([], cache)
  else if result.isFiltered ∨ result.reason ≠ .notFilteredWhiteList then ([], cache)
  else if result.filterID < 10 then ([], cache)
  else processDNSAnswers nftOK resp.answer cache

/-! ## The worker rule manager (`worker.RuleManager`) -/

/-- `sort.Search`'s binary-search loop: invariant `i ≤ h < j`, `f h`
shrinks to `[i, h)`'s upper half, `¬f h` to `[h+1, j)`.  Structural fuel
bounds the iterations (the interval shrinks every step, so any fuel of
at least `j - i` steps is never exhausted). -/
def sortSearchLoop (f : Nat → Bool) : Nat → Nat → Nat → Nat
  | 0, i, _ => i
  | fuel + 1, i, j =>
    if i < j then
      let h := (i + j) / 2
      if f h then sortSearchLoop f fuel i h
      else sortSearchLoop f fuel (h + 1) j
    else i

/-- Go's `<=` on strings: lexicographic comparison (byte-wise in Go,
code-point-wise here; they agree on ASCII rule strings). -/
def goStrLeChars : List Char → List Char → Bool
  | [], _ => true
  | _ :: _, [] => false
  | a :: as, b :: bs =>
    if a.toNat < b.toNat then true
    else if b.toNat < a.toNat then false
    else goStrLeChars as bs

def goStrLe (x y : String) : Bool := goStrLeChars x.data y.data

/-- `sort.SearchStrings(a, x)`: `sort.Search(len(a), fun i => a[i] >= x)`. -/
def searchStrings (a : List String) (x : String) : Nat :=
  sortSearchLoop (fun i => goStrLe x (a.getD i "")) (a.length + 1) 0 a.length

def orderedInsertGo (x : String) : List String → List String
  | [] => [x]
  | y :: ys => if goStrLe x y then x :: y :: ys else y :: orderedInsertGo x ys

/-- `sort.Strings`: ascending sort (insertion sort is an
order-equivalent model; strings form a total order, so the sorted result
is the same). -/
def sortStringsGo (l : List String) : List String := l.foldr orderedInsertGo []

structure RuleManager where
  items : List String
  size : Nat
deriving Repr, DecidableEq

/-- `RuleManager.Has`: the binary-search index compared against the
`size` field.  (The source never assigns `size`; it stays at its zero
value.) -/
def RuleManager.Has (rules : RuleManager) (item : String) : Bool :=
  searchStrings rules.items item != rules.size

/-- `RuleManager.Append`: no-op when `Has` holds, otherwise append and
re-sort.  The `size` field is not updated, mirroring the source. -/
def RuleManager.Append (rules : RuleManager) (item : String) : Bool × RuleManager :=
  if rules.Has item then (false, rules)
  else (true, { rules with items := sortStringsGo (rules.items ++ [item]) })

/-- `RuleManager.Remove`. -/
def RuleManager.Remove (rules : RuleManager) (item : String) : Bool × RuleManager :=
  let index := searchStrings rules.items item
  if index = rules.size then (false, rules)
  else (true, { rules with items := rules.items.take index ++ rules.items.drop (index + 1) })

/-! ## Concrete fixtures used by counterexample and witness theorems -/

/-- A baseline configuration: protection off, plain blocking mode, all
special gates off. -/
def confBase : ServerConf :=
  { protectionEnabled := false, blockingMode := "", blockingIPAddrv4 := none,
    blockingIPAddrv6 := none, blockedResponseTTL := 10, aaaaDisabled := false,
    refuseAny := false, enableDNSSEC := false, safeBrowsingBlockHost := "",
    parentalBlockHost := "" }

/-- An upstream response for `example.org. A` carrying an A record, an
RRSIG and a DO-flagged OPT record, as a DNSSEC-aware upstream returns
for a DO=1 query. -/
def urespSigned : Msg :=
  { emptyMsg with
      id := 7
      response := true
      question := [{ name := "example.org.", qtype := 1, qclass := 1 }]
      answer := [RR.a { name := "example.org.", rrtype := 1, rrclass := 1, ttl := 300 } [1, 2, 3, 4],
                 RR.rrsig { name := "example.org.", rrtype := 46, rrclass := 1, ttl := 300 }]
      extra := [RR.optRR 4096 true] }

/-- A client request for `example.org. A` without any OPT record (DO
flag absent). -/
def reqPlainA : Msg :=
  { emptyMsg with
      id := 7
      recursionDesired := true
      question := [{ name := "example.org.", qtype := 1, qclass := 1 }] }

/-- A baseline environment around `confBase` whose upstream always
answers `urespSigned`. -/
def envBase : Env :=
  { conf := confBase, hasFilter := false, hasQueryLog := false, hasStats := false,
    checkHost := fun _ _ => .ok FilterResult.empty,
    checkHostRules := fun _ _ => .ok FilterResult.empty,
    resolve := fun _ => .ok urespSigned, parseIP := fun _ => none }

/-- `envBase` with `EnableDNSSEC` on. -/
def envDNSSEC : Env := { envBase with conf := { confBase with enableDNSSEC := true } }

/-- The Mozilla canary request, qtype A. -/
def reqCanaryA : Msg :=
  { emptyMsg with
      id := 3
      recursionDesired := true
      question := [{ name := "use-application-dns.net.", qtype := 1, qclass := 1 }] }

/-- The Mozilla canary request, qtype AAAA. -/
def reqCanaryAAAA : Msg :=
  { emptyMsg with
      id := 3
      question := [{ name := "use-application-dns.net.", qtype := 28, qclass := 1 }] }

/-- `envBase` with the AAAA gate enabled. -/
def envAAAAOff : Env := { envBase with conf := { confBase with aaaaDisabled := true } }

/-- A qtype-ANY request. -/
def reqANYq : Msg :=
  { emptyMsg with
      id := 4
      question := [{ name := "x.example.", qtype := 255, qclass := 1 }] }

/-- `envBase` with `RefuseAny` set and both the query log and the stats
sink present. -/
def envRefuseAny : Env :=
  { envBase with
      conf := { confBase with refuseAny := true }
      hasQueryLog := true
      hasStats := true }

/-- A canonical-name rewrite verdict (`ReasonRewrite`, `canon_name`
only). -/
def frRewrite : FilterResult :=
  { FilterResult.empty with reason := .reasonRewrite, canonName := "real.corp" }

/-- The upstream answer for the rewritten question `real.corp. A`. -/
def urespRW : Msg :=
  { emptyMsg with
      id := 5
      response := true
      question := [{ name := "real.corp.", qtype := 1, qclass := 1 }]
      answer := [RR.a { name := "real.corp.", rrtype := 1, rrclass := 1, ttl := 60 } [9, 9, 9, 9]] }

/-- An environment whose filter engine answers every `CheckHost` with
`frRewrite` and whose upstream answers `urespRW`. -/
def envRW : Env :=
  { envBase with
      conf := { confBase with protectionEnabled := true }
      hasFilter := true
      checkHost := fun _ _ => .ok frRewrite
      resolve := fun _ => .ok urespRW }

/-- The aliased request `alias.corp. A`. -/
def reqAlias : Msg :=
  { emptyMsg with
      id := 5
      recursionDesired := true
      question := [{ name := "alias.corp.", qtype := 1, qclass := 1 }] }

/-- A running server whose proxy fails to stop. -/
def srvStopFails : SrvState :=
  { dnsProxy := some { stopErr := some "listener wedged", startErr := none },
    isRunning := true }

/-- A running server with a well-behaved proxy. -/
def srvHealthy : SrvState :=
  { dnsProxy := some { stopErr := none, startErr := none }, isRunning := true }

/-- A `Prepare` outcome that succeeds and installs a well-behaved proxy. -/
def prepOK : PrepInput :=
  { prepErr := none, newProxy := { stopErr := none, startErr := none } }

/-- A `Prepare` outcome that fails. -/
def prepBad : PrepInput :=
  { prepErr := some "bad config", newProxy := { stopErr := none, startErr := none } }

/-- A user-defined whitelist verdict (`filter_id` 12 ≥ 10). -/
def frWhiteList : FilterResult :=
  { FilterResult.empty with reason := .notFilteredWhiteList, filterID := 12 }

/-- A response with one A answer for the worker hook. -/
def respOneA : Msg :=
  { emptyMsg with
      id := 9
      response := true
      question := [{ name := "w.example.", qtype := 1, qclass := 1 }]
      answer := [RR.a { name := "w.example.", rrtype := 1, rrclass := 1, ttl := 60 } [1, 2, 3, 4]] }

/-- An access controller that blocks no client IP but blocks every
domain — exposing whether the domain check fires. -/
def accDomainsOnly : AccessCtx :=
  { isBlockedIP := fun _ => false, isBlockedDomain := fun _ => true }

/-- A request carrying two questions. -/
def reqTwoQuestions : Msg :=
  { emptyMsg with
      id := 6
      question := [{ name := "a.example.", qtype := 1, qclass := 1 },
                   { name := "b.example.", qtype := 1, qclass := 1 }] }

/-! ## Theorems -/

/-- Claim C6: `genSOA` returns exactly one SOA record, with the fixed
constants Refresh 1800, Retry 900, Expire 604800, Minttl 86400, Serial
100500 and Ns `fake-for-negative-caching.adguard.com.`; its Mbox is
`hostmaster.` followed by the question name exactly when that name is
non-empty and does not start with a dot, and `hostmaster.` otherwise;
its TTL is `BlockedResponseTTL`, with the package default substituted
when that is zero. -/
theorem c6_genSOA_shape (conf : ServerConf) (req : Msg) :
    ∃ hdr : RRHeader,
      genSOA conf req =
        [RR.soa hdr "fake-for-negative-caching.adguard.com."
          (if 0 < (q0name req).length ∧ (q0name req).front ≠ '.' then
            "hostmaster." ++ q0name req
          else "hostmaster.")
          100500 1800 900 604800 86400]
      ∧ hdr.rrtype = TypeSOA
      ∧ hdr.rrclass = ClassINET
      ∧ hdr.name = q0name req
      ∧ hdr.ttl =
          (if conf.blockedResponseTTL = 0 then defaultBlockedResponseTTL
           else conf.blockedResponseTTL) := by
  refine ⟨{ name := q0name req, rrtype := TypeSOA, rrclass := ClassINET,
            ttl := if conf.blockedResponseTTL = 0 then defaultBlockedResponseTTL
                   else conf.blockedResponseTTL }, ?_, rfl, rfl, rfl, rfl⟩
  unfold genSOA q0name
  cases req.question <;> rfl

/-- Claim C9 (the code violates it): on the `RuleManager` from the
source, `Append "a"` on the empty manager returns true, yet the
subsequent `Has "a"` returns false, while `Has "b"` — for a string never
appended — returns true: the binary-search lookup does not agree with
membership in the stored sorted list, because the comparison target
`size` is never maintained. -/
theorem c9_rulemanager_has_disagrees :
    (RuleManager.Append { items := [], size := 0 } "a").1 = true
    ∧ RuleManager.Has (RuleManager.Append { items := [], size := 0 } "a").2 "a" = false
    ∧ RuleManager.Has (RuleManager.Append { items := [], size := 0 } "a").2 "b" = true := by
  refine ⟨by decide, by decide, by decide⟩

/-- Claim C10: the pre-pipeline access gate drops a request for a
blocked client IP regardless of the question count, and never consults
the blocked-domain check unless the request carries exactly one
question. -/
theorem c10_access_gate (acc : AccessCtx) (addr : Option NetAddr) (req : Msg) :
    (acc.isBlockedIP (ipFromAddr addr) = true →
      beforeRequestHandler acc addr req = false)
    ∧ (acc.isBlockedIP (ipFromAddr addr) = false → req.question.length ≠ 1 →
      beforeRequestHandler acc addr req = true) := by
  unfold beforeRequestHandler
  constructor
  · intro h
    simp [h]
  · intro h hlen
    simp [h, hlen]

/-- Witness for C10: with a gate that blocks every domain but no IP, a
two-question request passes the gate untouched. -/
theorem c10_access_gate_witness :
    accDomainsOnly.isBlockedIP (ipFromAddr none) = false
    ∧ reqTwoQuestions.question.length ≠ 1
    ∧ beforeRequestHandler accDomainsOnly none reqTwoQuestions = true :=
  ⟨rfl, by decide, (c10_access_gate accDomainsOnly none reqTwoQuestions).2 rfl (by decide)⟩

/-- Claim C1 (the code violates it): with `EnableDNSSEC` set and a
client request carrying no DO flag, a pipeline run whose upstream
response carries a DO-flagged OPT record returns that response with its
RRSIG record still present in the Answer section — the skip guard of
`processDNSSECAfterResponse` fires in exactly the situation its own
comment says the records must be removed. -/
theorem c1_rrsig_retained_at_failing_input :
    envDNSSEC.conf.enableDNSSEC = true
    ∧ reqDO reqPlainA = false
    ∧ (handleDNSRequest envDNSSEC reqPlainA none).1.responseFromUpstream = true
    ∧ ((handleDNSRequest envDNSSEC reqPlainA none).1.res.getD emptyMsg).answer.any
        RR.isRRSIG = true := by
  refine ⟨rfl, rfl, rfl, rfl⟩

/-- `stopInternal` clears the running flag whenever it succeeds. -/
theorem stopInternal_ok_not_running (s s1 : SrvState)
    (h : stopInternal s = .ok s1) : s1.isRunning = false := by
  unfold stopInternal at h
  split at h
  · split at h
    · cases h
    · cases h
      rfl
  · cases h
    rfl

/-- `prepare` never touches the running flag. -/
theorem prepare_preserves_running (s s2 : SrvState) (inp : PrepInput)
    (h : prepare s inp = .ok s2) : s2.isRunning = s.isRunning := by
  unfold prepare at h
  split at h
  · cases h
  · cases h
    rfl

/-- Claim C7, amended (the claim as stated fails when `Stop` itself
fails): every failing `Reconfigure` returns a decorated error; if the
failure is at `Prepare` or `Start` (i.e. the internal stop succeeded)
the server is left stopped, while a failure of `Stop` itself leaves the
whole state — including a true running flag — unchanged. -/
theorem c7_reconfigure_amended (s : SrvState) (inp : PrepInput) (e : String)
    (h : (reconfigure s inp).1 = some e) :
    (∃ cause, e = decorateErr "could not reconfigure the server" cause)
    ∧ (∀ s1, stopInternal s = .ok s1 → (reconfigure s inp).2.isRunning = false)
    ∧ (∀ e0, stopInternal s = .error e0 → (reconfigure s inp).2 = s) := by
  unfold reconfigure at h ⊢
  cases hstop : stopInternal s with
  | error e0 =>
    rw [hstop] at h
    dsimp only at h ⊢
    cases h
    refine ⟨⟨e0, rfl⟩, ?_, fun _ _ => rfl⟩
    intro s1 hok
    cases hok
  | ok s1 =>
    have hrun1 : s1.isRunning = false := stopInternal_ok_not_running s s1 hstop
    rw [hstop] at h
    dsimp only at h ⊢
    cases hprep : prepare s1 inp with
    | error e1 =>
      rw [hprep] at h
      dsimp only at h ⊢
      cases h
      refine ⟨⟨e1, rfl⟩, ?_, ?_⟩
      · intro s1' hok
        cases hok
        exact hrun1
      · intro e2 hbad
        cases hbad
    | ok s2 =>
      have hrun2 : s2.isRunning = false :=
        (prepare_preserves_running s1 s2 inp hprep).trans hrun1
      rw [hprep] at h
      dsimp only at h ⊢
      cases hstart : startInternal s2 with
      | error e2 =>
        rw [hstart] at h
        dsimp only at h ⊢
        cases h
        refine ⟨⟨e2, rfl⟩, ?_, ?_⟩
        · intro s1' hok
          cases hok
          exact hrun2
        · intro e3 hbad
          cases hbad
      | ok s3 =>
        rw [hstart] at h
        dsimp only at h
        cases h

/-- Witness for the amended C7: a `Prepare` failure during `Reconfigure`
of a healthy running server yields a decorated error and a server whose
running flag is cleared. -/
theorem c7_reconfigure_amended_witness :
    (∃ cause,
      "could not reconfigure the server, cause: bad config" =
        decorateErr "could not reconfigure the server" cause)
    ∧ (reconfigure srvHealthy prepBad).2.isRunning = false := by
  have h := c7_reconfigure_amended srvHealthy prepBad
    "could not reconfigure the server, cause: bad config" rfl
  exact ⟨h.1, h.2.1 { srvHealthy with isRunning := false } rfl⟩

/-- Counterexample to C7 as stated: when the proxy's `Stop` fails, the
`Reconfigure` error is returned while `IsRunning` still reports true. -/
theorem c7_stop_failure_leaves_running :
    (reconfigure srvStopFails prepOK).1.isSome = true
    ∧ isRunningOf (reconfigure srvStopFails prepOK).2 = true := by
  refine ⟨rfl, rfl⟩

/-- Every address the worker loop issues an insertion for is the textual
form of some A record of the scanned list. -/
theorem processDNSAnswers_sound (nftOK : String → Bool) :
    ∀ (rrs : List RR) (cache : List String) (s : String),
      s ∈ (processDNSAnswers nftOK rrs cache).1 →
      ∃ hdr ip, RR.a hdr ip ∈ rrs ∧ s = ipv4String ip := by
  intro rrs
  induction rrs with
  | nil =>
    intro cache s h
    simp [processDNSAnswers] at h
  | cons rr rest ih =>
    intro cache s h
    cases rr with
    | a hdr ip =>
      simp only [processDNSAnswers] at h
      split at h
      · rcases ih _ _ h with ⟨hdr', ip', hmem, hs⟩
        exact ⟨hdr', ip', List.mem_cons_of_mem _ hmem, hs⟩
      · rcases hrec : processDNSAnswers nftOK rest
          (if nftOK (ipv4String ip) then ipv4String ip :: cache else cache) with ⟨ins, cf⟩
        rw [hrec] at h
        simp only [List.mem_cons] at h
        rcases h with h | h
        · exact ⟨hdr, ip, List.mem_cons_self _ _, h⟩
        · have h' : s ∈ (processDNSAnswers nftOK rest
            (if nftOK (ipv4String ip) then ipv4String ip :: cache else cache)).1 := by
            rw [hrec]; exact h
          rcases ih _ _ h' with ⟨hdr', ip', hmem, hs⟩
          exact ⟨hdr', ip', List.mem_cons_of_mem _ hmem, hs⟩
    | aaaa hdr ip =>
      simp only [processDNSAnswers] at h
      rcases ih _ _ h with ⟨hdr', ip', hmem, hs⟩
      exact ⟨hdr', ip', List.mem_cons_of_mem _ hmem, hs⟩
    | cname hdr t =>
      simp only [processDNSAnswers] at h
      rcases ih _ _ h with ⟨hdr', ip', hmem, hs⟩
      exact ⟨hdr', ip', List.mem_cons_of_mem _ hmem, hs⟩
    | ptr hdr p =>
      simp only [processDNSAnswers] at h
      rcases ih _ _ h with ⟨hdr', ip', hmem, hs⟩
      exact ⟨hdr', ip', List.mem_cons_of_mem _ hmem, hs⟩
    | soa hdr ns mb s' r rt e m =>
      simp only [processDNSAnswers] at h
      rcases ih _ _ h with ⟨hdr', ip', hmem, hs⟩
      exact ⟨hdr', ip', List.mem_cons_of_mem _ hmem, hs⟩
    | rrsig hdr =>
      simp only [processDNSAnswers] at h
      rcases ih _ _ h with ⟨hdr', ip', hmem, hs⟩
      exact ⟨hdr', ip', List.mem_cons_of_mem _ hmem, hs⟩
    | optRR sz d =>
      simp only [processDNSAnswers] at h
      rcases ih _ _ h with ⟨hdr', ip', hmem, hs⟩
      exact ⟨hdr', ip', List.mem_cons_of_mem _ hmem, hs⟩
    | generic hdr =>
      simp only [processDNSAnswers] at h
      rcases ih _ _ h with ⟨hdr', ip', hmem, hs⟩
      exact ⟨hdr', ip', List.mem_cons_of_mem _ hmem, hs⟩

/-- Claim C8: the worker hook issues a packet-filter insertion only
under an unfiltered whitelist verdict from a user-defined list
(`filter_id` at least 10), only for addresses of A-type answer records,
and never for an empty answer section. -/
theorem c8_hook_insertion_conditions (nftOK : String → Bool) (result : FilterResult)
    (resp : Msg) (cache : List String) :
    ((processDNSResult nftOK result resp cache).1 ≠ [] →
      result.isFiltered = false ∧ result.reason = .notFilteredWhiteList
      ∧ 10 ≤ result.filterID)
    ∧ (∀ s ∈ (processDNSResult nftOK result resp cache).1,
        ∃ hdr ip, RR.a hdr ip ∈ resp.answer ∧ s = ipv4String ip)
    ∧ (resp.answer = [] → (processDNSResult nftOK result resp cache).1 = []) := by
  unfold processDNSResult
  split
  · exact ⟨fun hne => absurd rfl hne, by simp, fun _ => rfl⟩
  · rename_i h1
    split
    · exact ⟨fun hne => absurd rfl hne, by simp, fun _ => rfl⟩
    · rename_i h2
      split
      · exact ⟨fun hne => absurd rfl hne, by simp, fun _ => rfl⟩
      · rename_i h3
        push_neg at h2
        refine ⟨fun _ => ⟨?_, h2.2, ?_⟩, ?_, fun hemp => absurd hemp h1⟩
        · exact Bool.not_eq_true _ ▸ Bool.of_not_eq_true h2.1
        · exact Int.not_lt.mp h3
        · intro s hs
          exact processDNSAnswers_sound nftOK resp.answer cache s hs

/-- Witness for C8: on a whitelist verdict with filter id 12 and a
one-A-record answer, an insertion is issued and the verdict conditions
hold. -/
theorem c8_hook_insertion_conditions_witness :
    (processDNSResult (fun _ => true) frWhiteList respOneA []).1 ≠ []
    ∧ frWhiteList.isFiltered = false
    ∧ frWhiteList.reason = .notFilteredWhiteList
    ∧ 10 ≤ frWhiteList.filterID := by
  have h := (c8_hook_insertion_conditions (fun _ => true) frWhiteList respOneA []).1
    (by decide)
  exact ⟨by decide, h.1, h.2.1, h.2.2⟩

theorem genNXDomain_rcode (conf : ServerConf) (req : Msg) :
    (genNXDomain conf req).rcode = RcodeNameError := rfl

/-- Claim C3, amended (the claim as stated fails under the disabled-AAAA
gate, which runs first): a canary request never reaches upstream; unless
it is short-circuited as a disabled AAAA query, its response is the
synthesized NXDOMAIN. -/
theorem c3_canary_amended (env : Env) (req : Msg) (addr : Option NetAddr)
    (q : Question) (qs : List Question)
    (hq : req.question = q :: qs)
    (hname : q.name = "use-application-dns.net.")
    (htype : q.qtype = TypeA ∨ q.qtype = TypeAAAA) :
    (handleDNSRequest env req addr).1.upstreamCalled = false
    ∧ (handleDNSRequest env req addr).2 = RunExit.early
    ∧ (¬(env.conf.aaaaDisabled = true ∧ q.qtype = TypeAAAA) →
        ∃ m, (handleDNSRequest env req addr).1.res = some m
          ∧ m.rcode = RcodeNameError) := by
  have hreq0 : (initCtx req addr).req = req := rfl
  have hq0t : q0type req = q.qtype := by simp [q0type, hq]
  have hq0n : q0name req = q.name := by simp [q0name, hq]
  by_cases hgate : env.conf.aaaaDisabled = true ∧ q.qtype = TypeAAAA
  · have h1 : processInitial env (initCtx req addr) =
        ({ initCtx req addr with
            res := some (checkDisabledAAAAResponse req) }, .finish) := by
      unfold processInitial
      rw [if_pos ⟨hgate.1, by rw [hreq0, hq0t]; exact hgate.2⟩]
      rfl
    have hrun : handleDNSRequest env req addr =
        ({ initCtx req addr with
            res := some (checkDisabledAAAAResponse req) }, RunExit.early) := by
      unfold handleDNSRequest
      simp only [stages, runStages, h1]
    rw [hrun]
    exact ⟨rfl, rfl, fun hc => absurd hgate hc⟩
  · have hncond : ¬(env.conf.aaaaDisabled = true ∧ q0type (initCtx req addr).req = TypeAAAA) := by
      intro hc
      refine hgate ⟨hc.1, ?_⟩
      have := hc.2
      rw [hreq0, hq0t] at this
      exact this
    have h1 : processInitial env (initCtx req addr) =
        ({ initCtx req addr with res := some (genNXDomain env.conf req) }, .finish) := by
      unfold processInitial
      rw [if_neg hncond,
        if_pos (show (q0type (initCtx req addr).req = TypeA ∨
            q0type (initCtx req addr).req = TypeAAAA) ∧
            q0name (initCtx req addr).req = "use-application-dns.net." from
          ⟨by rw [hreq0, hq0t]; exact htype, by rw [hreq0, hq0n]; exact hname⟩)]
      rfl
    have hrun : handleDNSRequest env req addr =
        ({ initCtx req addr with res := some (genNXDomain env.conf req) }, RunExit.early) := by
      unfold handleDNSRequest
      simp only [stages, runStages, h1]
    rw [hrun]
    exact ⟨rfl, rfl, fun _ =>
      ⟨genNXDomain env.conf req, rfl, genNXDomain_rcode env.conf req⟩⟩

/-- Counterexample to C3 as stated: the canary AAAA query under
`AAAADisabled` is answered by the disabled-AAAA gate with a no-error
empty response, not with NXDOMAIN (upstream is still not invoked). -/
theorem c3_canary_aaaa_disabled_not_nxdomain :
    envAAAAOff.conf.aaaaDisabled = true
    ∧ (∃ m, (handleDNSRequest envAAAAOff reqCanaryAAAA none).1.res = some m
         ∧ m.rcode = RcodeSuccess)
    ∧ RcodeSuccess ≠ RcodeNameError
    ∧ (handleDNSRequest envAAAAOff reqCanaryAAAA none).1.upstreamCalled = false := by
  exact ⟨rfl, ⟨_, rfl, rfl⟩, by decide, rfl⟩

/-- Witness for the amended C3: the canary A query on the baseline
environment gets NXDOMAIN without an upstream call. -/
theorem c3_canary_amended_witness :
    (handleDNSRequest envBase reqCanaryA none).1.upstreamCalled = false
    ∧ (∃ m, (handleDNSRequest envBase reqCanaryA none).1.res = some m
         ∧ m.rcode = RcodeNameError) := by
  have h := c3_canary_amended envBase reqCanaryA none
    { name := "use-application-dns.net.", qtype := 1, qclass := 1 } [] rfl rfl
    (Or.inl rfl)
  exact ⟨h.1, h.2.2 (by decide)⟩

theorem genResponseWithIP_ra (conf : ServerConf) (req : Msg) (ip : List Nat) :
    (genResponseWithIP conf req ip).recursionAvailable = true := by
  unfold genResponseWithIP
  split
  · rfl
  · split
    · rfl
    · rfl

theorem genBlockedHost_ra (env : Env) (req : Msg) (na : String) :
    ((genBlockedHost env req na).1).recursionAvailable = true := by
  unfold genBlockedHost
  split
  · exact genResponseWithIP_ra _ _ _
  · dsimp only
    split
    · rfl
    · rfl

theorem genDNSFilterMessage_ra (env : Env) (req : Msg) (fr : FilterResult) :
    ((genDNSFilterMessage env req fr).1).recursionAvailable = true := by
  unfold genDNSFilterMessage
  dsimp only
  repeat' split
  all_goals first
    | exact genBlockedHost_ra _ _ _
    | exact genResponseWithIP_ra _ _ _
    | rfl

/-- Claim C2, amended (the claim as stated fails for responses returned
by an early-finishing stage): every core-synthesized response carries
`recursion_available = true`; a response that leaves the pipeline
through the normal exit of the six-stage loop additionally carries
`compress = true` — but the canary NXDOMAIN (and the disabled-AAAA
response), returned via `Finish` before the compression fixup, do not. -/
theorem c2_flags_amended (env : Env) (req : Msg) (fr : FilterResult) (naStr : String)
    (addr : Option NetAddr) (ctx : Ctx) (r : Msg) :
    ((makeResponse req).recursionAvailable = true ∧ (makeResponse req).compress = true)
    ∧ (genNXDomain env.conf req).recursionAvailable = true
    ∧ (genServerFailure req).recursionAvailable = true
    ∧ ((genBlockedHost env req naStr).1).recursionAvailable = true
    ∧ ((genDNSFilterMessage env req fr).1).recursionAvailable = true
    ∧ (handleDNSRequest env req addr = (ctx, RunExit.completed) → ctx.res = some r →
        r.compress = true) := by
  refine ⟨⟨rfl, rfl⟩, rfl, rfl, genBlockedHost_ra _ _ _, genDNSFilterMessage_ra _ _ _, ?_⟩
  intro hrun hres
  unfold handleDNSRequest at hrun
  rcases hr : runStages env stages (initCtx req addr) with ⟨c, ex⟩
  rw [hr] at hrun
  cases ex with
  | completed =>
    dsimp only at hrun
    cases hcres : c.res with
    | some r0 =>
      rw [hcres] at hrun
      dsimp only at hrun
      cases hrun
      cases hres
      rfl
    | none =>
      rw [hcres] at hrun
      dsimp only at hrun
      cases hrun
      rw [hcres] at hres
      cases hres
  | early =>
    dsimp only at hrun
    cases hrun
  | failed =>
    dsimp only at hrun
    cases hrun

/-- Counterexample to C2 as stated: the canary NXDOMAIN response is
returned to the proxy with `compress = false` (its recursion-available
bit is set). -/
theorem c2_canary_not_compressed :
    ∃ m, (handleDNSRequest envBase reqCanaryA none).1.res = some m
      ∧ m.compress = false ∧ m.recursionAvailable = true :=
  ⟨_, rfl, rfl, rfl⟩

/-- Witness for the amended C2: a plain request that runs through all
six stages comes back compressed. -/
theorem c2_flags_amended_witness :
    ((handleDNSRequest envBase reqPlainA none).1.res.getD emptyMsg).compress = true := by
  have h := c2_flags_amended envBase reqPlainA FilterResult.empty "" none
    (handleDNSRequest envBase reqPlainA none).1
    ((handleDNSRequest envBase reqPlainA none).1.res.getD emptyMsg)
  exact h.2.2.2.2.2 rfl rfl

theorem q0type_setQ0Name (m : Msg) (n : String) :
    q0type (m.setQ0Name n) = q0type m := by
  unfold Msg.setQ0Name q0type
  cases m.question <;> rfl

theorem len_setQ0Name (m : Msg) (n : String) :
    (m.setQ0Name n).question.length = m.question.length := by
  unfold Msg.setQ0Name
  cases m.question <;> rfl

theorem len_setQ0 (m : Msg) (q : Question) :
    (m.setQ0 q).question.length = m.question.length := by
  unfold Msg.setQ0
  cases m.question <;> rfl

/-- Stage 1 only ever writes the response field. -/
theorem processInitial_frame (env : Env) (ctx : Ctx) :
    ∃ r, (processInitial env ctx).1 = { ctx with res := r } := by
  unfold processInitial
  split
  · exact ⟨_, rfl⟩
  · split
    · exact ⟨_, rfl⟩
    · exact ⟨ctx.res, rfl⟩

/-- Stage 4 only ever writes the response field. -/
theorem processDNSSECAfterResponse_frame (env : Env) (ctx : Ctx) :
    ∃ r, (processDNSSECAfterResponse env ctx).1 = { ctx with res := r } := by
  unfold processDNSSECAfterResponse
  split
  · exact ⟨ctx.res, rfl⟩
  · dsimp only
    split
    · exact ⟨ctx.res, rfl⟩
    · exact ⟨_, rfl⟩

/-- Stage 1 and stage 4 return Done or Finish, never Error. -/
theorem processInitial_no_error (env : Env) (ctx : Ctx) :
    (processInitial env ctx).2 ≠ StageResult.error := by
  unfold processInitial
  split
  · intro h
    cases h
  · split <;> intro h <;> cases h

/-- Stage 3 preserves the filter verdict, the saved question, both event
logs and the question section of the request. -/
theorem processUpstream_c5 (env : Env) (ctx : Ctx) :
    (processUpstream env ctx).1.logEvents = ctx.logEvents
    ∧ (processUpstream env ctx).1.statEvents = ctx.statEvents
    ∧ (processUpstream env ctx).1.result = ctx.result
    ∧ (processUpstream env ctx).1.origQuestion = ctx.origQuestion
    ∧ (processUpstream env ctx).1.req.question = ctx.req.question
    ∧ (processUpstream env ctx).1.protectionEnabled = ctx.protectionEnabled := by
  unfold processUpstream
  dsimp only
  repeat' split
  all_goals exact ⟨rfl, rfl, rfl, rfl, rfl, rfl⟩

/-- The facts stage 2's helper guarantees on success: events, question
count, qtype and protection flag are preserved, the verdict comes from
`CheckHost`, and whenever the verdict is a canonical-name rewrite that
is unfiltered with an empty IP list, the saved original question carries
the original qtype. -/
theorem filterDNSRequest_c5 (env : Env) (ctx : Ctx) (fr : FilterResult) (ctx' : Ctx)
    (h : filterDNSRequest env ctx = .ok (fr, ctx')) :
    ctx'.logEvents = ctx.logEvents ∧ ctx'.statEvents = ctx.statEvents
    ∧ ctx'.req.question.length = ctx.req.question.length
    ∧ q0type ctx'.req = q0type ctx.req
    ∧ ctx'.protectionEnabled = ctx.protectionEnabled
    ∧ env.checkHost (trimSuffix (q0name ctx.req) ".") (q0type ctx.req) = .ok fr
    ∧ (fr.isFiltered = false → fr.reason = .reasonRewrite → fr.canonName ≠ "" →
        fr.ipList = [] → ctx'.origQuestion.qtype = q0type ctx.req) := by
  unfold filterDNSRequest at h
  dsimp only at h
  cases hch : env.checkHost (trimSuffix (q0name ctx.req) ".") (q0type ctx.req) with
  | error e =>
    rw [hch] at h
    cases h
  | ok r =>
    rw [hch] at h
    dsimp only at h
    split at h
    · -- isFiltered
      rename_i hf
      simp only [Except.ok.injEq, Prod.mk.injEq] at h
      obtain ⟨hfr, hctx⟩ := h
      subst hfr
      subst hctx
      refine ⟨rfl, rfl, rfl, rfl, rfl, rfl, ?_⟩
      intro hnf _ _ _
      rw [hf] at hnf
      cases hnf
    · split at h
      · -- rewrite/etc-hosts with non-empty IP list
        rename_i hcond
        simp only [Except.ok.injEq, Prod.mk.injEq] at h
        obtain ⟨hfr, hctx⟩ := h
        subst hfr
        subst hctx
        refine ⟨rfl, rfl, rfl, rfl, rfl, rfl, ?_⟩
        intro _ _ _ hipl
        exact absurd hipl hcond.2
      · split at h
        · -- canonical-name question rewrite
          rename_i hcond
          simp only [Except.ok.injEq, Prod.mk.injEq] at h
          obtain ⟨hfr, hctx⟩ := h
          subst hfr
          subst hctx
          refine ⟨rfl, rfl, len_setQ0Name _ _, q0type_setQ0Name _ _, rfl, rfl, ?_⟩
          intro _ _ _ _
          unfold q0type
          cases ctx.req.question <;> rfl
        · split at h
          · -- reverse-host PTR response
            rename_i hne hcond
            simp only [Except.ok.injEq, Prod.mk.injEq] at h
            obtain ⟨hfr, hctx⟩ := h
            subst hfr
            subst hctx
            refine ⟨rfl, rfl, rfl, rfl, rfl, rfl, ?_⟩
            intro _ hrw hcn _
            exact absurd ⟨hrw, hcn⟩ hne
          · -- no branch taken
            rename_i hne _
            simp only [Except.ok.injEq, Prod.mk.injEq] at h
            obtain ⟨hfr, hctx⟩ := h
            subst hfr
            subst hctx
            refine ⟨rfl, rfl, rfl, rfl, rfl, rfl, ?_⟩
            intro _ hrw hcn _
            exact absurd ⟨hrw, hcn⟩ hne

/-- The stage-2 facts used for the logging claim. -/
theorem processFilteringBeforeRequest_c5 (env : Env) (ctx : Ctx) (ctx' : Ctx)
    (r : StageResult) (hres0 : ctx.result.reason ≠ .reasonRewrite)
    (h : processFilteringBeforeRequest env ctx = (ctx', r)) :
    ctx'.logEvents = ctx.logEvents ∧ ctx'.statEvents = ctx.statEvents
    ∧ (r = .done →
        ctx'.req.question.length = ctx.req.question.length
        ∧ q0type ctx'.req = q0type ctx.req
        ∧ ((∀ hh tt fr, env.checkHost hh tt = .ok fr → fr.reason = .reasonRewrite →
              fr.canonName ≠ "" → fr.isFiltered = false ∧ fr.ipList = []) →
            ctx'.result.reason = .reasonRewrite → ctx'.result.canonName ≠ "" →
            ctx'.origQuestion.qtype = q0type ctx.req)) := by
  unfold processFilteringBeforeRequest at h
  dsimp only at h
  split at h
  · -- protection enabled
    cases hfd : filterDNSRequest env
        { ctx with protectionEnabled := env.conf.protectionEnabled && env.hasFilter } with
    | error e =>
      rw [hfd] at h
      dsimp only at h
      cases h
      exact ⟨rfl, rfl, fun hbad => by cases hbad⟩
    | ok p =>
      rcases p with ⟨fr, ctxm⟩
      rw [hfd] at h
      dsimp only at h
      cases h
      have hf := filterDNSRequest_c5 env _ fr ctxm hfd
      refine ⟨hf.1, hf.2.1, fun _ => ⟨hf.2.2.1, hf.2.2.2.1, ?_⟩⟩
      intro hexcl hrw hcn
      have hchk := hf.2.2.2.2.2.1
      have hco := hexcl _ _ fr hchk hrw hcn
      exact hf.2.2.2.2.2.2 hco.1 hrw hcn hco.2
  · -- protection disabled
    cases h
    refine ⟨rfl, rfl, fun _ => ⟨rfl, rfl, ?_⟩⟩
    intro _ hrw _
    exact absurd hrw hres0

/-- The response-filtering loop touches only the response, the verdict
bookkeeping and the upstream flag. -/
theorem filterDNSResponseGo_frame (env : Env) (ctx : Ctx) :
    ∀ (rrs : List RR) (out : Option FilterResult × Ctx),
      filterDNSResponseGo env ctx rrs = .ok out →
      out.2.logEvents = ctx.logEvents ∧ out.2.statEvents = ctx.statEvents
      ∧ out.2.req = ctx.req := by
  intro rrs
  induction rrs with
  | nil =>
    intro out h
    simp only [filterDNSResponseGo] at h
    cases h
    exact ⟨rfl, rfl, rfl⟩
  | cons rr rest ih =>
    intro out h
    simp only [filterDNSResponseGo] at h
    split at h
    · exact ih out h
    · split at h
      · exact ih out h
      · split at h
        · cases h
        · split at h
          · try dsimp only at h
            cases h
            exact ⟨rfl, rfl, rfl⟩
          · exact ih out h

/-- The stage-5 facts used for the logging claim. -/
theorem processFilteringAfterResponse_c5 (env : Env) (ctx : Ctx) (ctx' : Ctx)
    (r : StageResult)
    (h : processFilteringAfterResponse env ctx = (ctx', r)) :
    ctx'.logEvents = ctx.logEvents ∧ ctx'.statEvents = ctx.statEvents
    ∧ ctx'.req.question.length = ctx.req.question.length
    ∧ (q0type ctx'.req = q0type ctx.req ∨
        (ctx.result.reason = .reasonRewrite ∧ ctx.result.canonName ≠ ""
          ∧ q0type ctx'.req = ctx.origQuestion.qtype)) := by
  unfold processFilteringAfterResponse at h
  split at h
  · -- ReasonRewrite
    rename_i hrw
    split at h
    · cases h
      exact ⟨rfl, rfl, rfl, Or.inl rfl⟩
    · rename_i hcn
      try dsimp only at h
      cases h
      refine ⟨rfl, rfl, len_setQ0 _ _, ?_⟩
      show q0type (ctx.req.setQ0 ctx.origQuestion) = q0type ctx.req ∨ _
      unfold Msg.setQ0 q0type
      cases hqq : ctx.req.question with
      | nil => exact Or.inl rfl
      | cons a rest => exact Or.inr ⟨hrw, hcn, rfl⟩
  · -- NotFilteredWhiteList
    cases h
    exact ⟨rfl, rfl, rfl, Or.inl rfl⟩
  · -- default
    split at h
    · cases h
      exact ⟨rfl, rfl, rfl, Or.inl rfl⟩
    · dsimp only at h
      cases hfd : filterDNSResponse env ctx with
      | error e =>
        rw [hfd] at h
        dsimp only at h
        cases h
        exact ⟨rfl, rfl, rfl, Or.inl rfl⟩
      | ok p =>
        rw [hfd] at h
        unfold filterDNSResponse at hfd
        rcases p with ⟨ofr, ctxm⟩
        have hfr := filterDNSResponseGo_frame env ctx _ _ hfd
        cases ofr with
        | some fr2 =>
          dsimp only at h
          cases h
          exact ⟨hfr.1, hfr.2.1, by rw [hfr.2.2], Or.inl (by rw [hfr.2.2])⟩
        | none =>
          dsimp only at h
          cases h
          exact ⟨hfr.1, hfr.2.1, by rw [hfr.2.2], Or.inl (by rw [hfr.2.2])⟩

/-- The stage-6 behaviour: always Done; it appends at most one
query-log entry and at most one stats entry, and appends no query-log
entry for an ANY question under `RefuseAny`. -/
theorem processQueryLogsAndStats_c5 (env : Env) (ctx : Ctx) :
    (processQueryLogsAndStats env ctx).2 = .done
    ∧ (processQueryLogsAndStats env ctx).1.logEvents.length ≤ ctx.logEvents.length + 1
    ∧ (processQueryLogsAndStats env ctx).1.statEvents.length ≤ ctx.statEvents.length + 1
    ∧ ((1 ≤ ctx.req.question.length ∧ q0type ctx.req = TypeANY ∧
        env.conf.refuseAny = true) →
        (processQueryLogsAndStats env ctx).1.logEvents = ctx.logEvents) := by
  unfold processQueryLogsAndStats updateStatsEntry
  dsimp only
  by_cases hC : 1 ≤ ctx.req.question.length ∧ q0type ctx.req = TypeANY ∧
      env.conf.refuseAny = true
  · rw [if_pos hC]
    by_cases hst : env.hasStats = true
    · rw [if_neg (not_not_intro hst)]
      dsimp only
      rw [if_neg (show ¬(false = true ∧ env.hasQueryLog = true) from
        fun hc => absurd hc.1 Bool.false_ne_true)]
      exact ⟨rfl, by simp, by simp, fun _ => rfl⟩
    · rw [if_pos hst]
      dsimp only
      rw [if_neg (show ¬(false = true ∧ env.hasQueryLog = true) from
        fun hc => absurd hc.1 Bool.false_ne_true)]
      exact ⟨rfl, by simp, by simp, fun _ => rfl⟩
  · rw [if_neg hC]
    by_cases hql : env.hasQueryLog = true
    · by_cases hst : env.hasStats = true
      · rw [if_neg (not_not_intro hst)]
        dsimp only
        rw [if_pos (show (true = true ∧ env.hasQueryLog = true) from ⟨rfl, hql⟩)]
        exact ⟨rfl, by simp, by simp, fun h => absurd h hC⟩
      · rw [if_pos hst]
        dsimp only
        rw [if_pos (show (true = true ∧ env.hasQueryLog = true) from ⟨rfl, hql⟩)]
        exact ⟨rfl, by simp, by simp, fun h => absurd h hC⟩
    · by_cases hst : env.hasStats = true
      · rw [if_neg (not_not_intro hst)]
        dsimp only
        rw [if_neg (show ¬(true = true ∧ env.hasQueryLog = true) from
          fun hc => hql hc.2)]
        exact ⟨rfl, by simp, by simp, fun _ => rfl⟩
      · rw [if_pos hst]
        dsimp only
        rw [if_neg (show ¬(true = true ∧ env.hasQueryLog = true) from
          fun hc => hql hc.2)]
        exact ⟨rfl, by simp, by simp, fun _ => rfl⟩

/-- Claim C5, amended (the claim as stated fails for the statistics
sink): over a full pipeline run, at most one query-log entry and at most
one statistics entry are recorded, both in stage 6 only (a run that does
not complete the stage loop records neither); for an ANY request under
`RefuseAny` no query-log entry is recorded — but the statistics update
is not suppressed by that condition.  The `hexcl` hypothesis excludes
filter verdicts that are canonical-name rewrites outside the
question-rewrite path (`ReasonRewrite` with `canon_name` set together
with `is_filtered` or a non-empty `ip_list`), for which stage 5
overwrites the question with the zero value and the ANY suppression no
longer sees the original qtype. -/
theorem c5_logging_amended (env : Env) (req : Msg) (addr : Option NetAddr)
    (q : Question) (qs : List Question) (hq : req.question = q :: qs)
    (hexcl : ∀ hh tt fr, env.checkHost hh tt = .ok fr → fr.reason = .reasonRewrite →
      fr.canonName ≠ "" → fr.isFiltered = false ∧ fr.ipList = []) :
    (handleDNSRequest env req addr).1.logEvents.length ≤ 1
    ∧ (handleDNSRequest env req addr).1.statEvents.length ≤ 1
    ∧ ((handleDNSRequest env req addr).2 ≠ RunExit.completed →
        (handleDNSRequest env req addr).1.logEvents = []
        ∧ (handleDNSRequest env req addr).1.statEvents = [])
    ∧ (q.qtype = TypeANY → env.conf.refuseAny = true →
        (handleDNSRequest env req addr).1.logEvents = []) := by
  have hq0t : q0type req = q.qtype := by simp [q0type, hq]
  rcases h1 : processInitial env (initCtx req addr) with ⟨c1, r1⟩
  obtain ⟨res1, hf1⟩ := processInitial_frame env (initCtx req addr)
  rw [h1] at hf1
  dsimp only at hf1
  have hc1log : c1.logEvents = [] := by rw [hf1]; rfl
  have hc1stat : c1.statEvents = [] := by rw [hf1]; rfl
  have hc1req : c1.req = req := by rw [hf1]; rfl
  have hc1res : c1.result = FilterResult.empty := by rw [hf1]; rfl
  unfold handleDNSRequest
  simp only [stages, runStages, h1]
  cases r1 with
  | finish =>
    exact ⟨by simp [hc1log], by simp [hc1stat], fun _ => ⟨hc1log, hc1stat⟩,
      fun _ _ => hc1log⟩
  | error =>
    exact ⟨by simp [hc1log], by simp [hc1stat], fun _ => ⟨hc1log, hc1stat⟩,
      fun _ _ => hc1log⟩
  | done =>
    rcases h2 : processFilteringBeforeRequest env c1 with ⟨c2, r2⟩
    have hfacts2 := processFilteringBeforeRequest_c5 env c1 c2 r2
      (by rw [hc1res]; decide) h2
    have h2log : c2.logEvents = [] := hfacts2.1.trans hc1log
    have h2stat : c2.statEvents = [] := hfacts2.2.1.trans hc1stat
    simp only [h2]
    cases r2 with
    | finish =>
      exact ⟨by simp [h2log], by simp [h2stat], fun _ => ⟨h2log, h2stat⟩,
        fun _ _ => h2log⟩
    | error =>
      exact ⟨by simp [h2log], by simp [h2stat], fun _ => ⟨h2log, h2stat⟩,
        fun _ _ => h2log⟩
    | done =>
      have hdone2 := hfacts2.2.2 rfl
      have h2len : c2.req.question.length = req.question.length := by
        rw [hdone2.1, hc1req]
      have h2q0t : q0type c2.req = q.qtype := by
        rw [hdone2.2.1, hc1req, hq0t]
      have h2orig : c2.result.reason = .reasonRewrite → c2.result.canonName ≠ "" →
          c2.origQuestion.qtype = q.qtype := by
        intro hr hc
        have := hdone2.2.2 hexcl hr hc
        rw [hc1req, hq0t] at this
        exact this
      rcases h3 : processUpstream env c2 with ⟨c3, r3⟩
      have hfacts3 := processUpstream_c5 env c2
      rw [h3] at hfacts3
      dsimp only at hfacts3
      have h3log : c3.logEvents = [] := hfacts3.1.trans h2log
      have h3stat : c3.statEvents = [] := hfacts3.2.1.trans h2stat
      have h3res : c3.result = c2.result := hfacts3.2.2.1
      have h3orig : c3.origQuestion = c2.origQuestion := hfacts3.2.2.2.1
      have h3len : c3.req.question.length = req.question.length := by
        rw [hfacts3.2.2.2.2.1, h2len]
      have h3q0t : q0type c3.req = q.qtype := by
        unfold q0type
        rw [hfacts3.2.2.2.2.1]
        exact h2q0t
      simp only [h3]
      cases r3 with
      | finish =>
        exact ⟨by simp [h3log], by simp [h3stat], fun _ => ⟨h3log, h3stat⟩,
          fun _ _ => h3log⟩
      | error =>
        exact ⟨by simp [h3log], by simp [h3stat], fun _ => ⟨h3log, h3stat⟩,
          fun _ _ => h3log⟩
      | done =>
        rcases h4 : processDNSSECAfterResponse env c3 with ⟨c4, r4⟩
        obtain ⟨res4, hf4⟩ := processDNSSECAfterResponse_frame env c3
        rw [h4] at hf4
        dsimp only at hf4
        have h4log : c4.logEvents = [] := by rw [hf4]; exact h3log
        have h4stat : c4.statEvents = [] := by rw [hf4]; exact h3stat
        have h4res : c4.result = c2.result := by rw [hf4]; exact h3res
        have h4orig : c4.origQuestion = c2.origQuestion := by rw [hf4]; exact h3orig
        have h4len : c4.req.question.length = req.question.length := by
          rw [hf4]; exact h3len
        have h4q0t : q0type c4.req = q.qtype := by rw [hf4]; exact h3q0t
        simp only [h4]
        cases r4 with
        | finish =>
          exact ⟨by simp [h4log], by simp [h4stat], fun _ => ⟨h4log, h4stat⟩,
            fun _ _ => h4log⟩
        | error =>
          exact ⟨by simp [h4log], by simp [h4stat], fun _ => ⟨h4log, h4stat⟩,
            fun _ _ => h4log⟩
        | done =>
          rcases h5 : processFilteringAfterResponse env c4 with ⟨c5, r5⟩
          have hfacts5 := processFilteringAfterResponse_c5 env c4 c5 r5 h5
          have h5log : c5.logEvents = [] := hfacts5.1.trans h4log
          have h5stat : c5.statEvents = [] := hfacts5.2.1.trans h4stat
          have h5len : c5.req.question.length = req.question.length := by
            rw [hfacts5.2.2.1, h4len]
          have h5q0t : q0type c5.req = q.qtype := by
            rcases hfacts5.2.2.2 with hsame | ⟨hrw, hcn, hqt⟩
            · rw [hsame, h4q0t]
            · rw [h4res] at hrw hcn
              rw [hqt, h4orig]
              exact h2orig hrw hcn
          simp only [h5]
          cases r5 with
          | finish =>
            exact ⟨by simp [h5log], by simp [h5stat], fun _ => ⟨h5log, h5stat⟩,
              fun _ _ => h5log⟩
          | error =>
            exact ⟨by simp [h5log], by simp [h5stat], fun _ => ⟨h5log, h5stat⟩,
              fun _ _ => h5log⟩
          | done =>
            rcases h6 : processQueryLogsAndStats env c5 with ⟨c6, r6⟩
            have hfacts6 := processQueryLogsAndStats_c5 env c5
            rw [h6] at hfacts6
            dsimp only at hfacts6
            have hr6 : r6 = .done := hfacts6.1
            subst hr6
            have h6loglen : c6.logEvents.length ≤ 1 := by
              have := hfacts6.2.1
              rw [h5log] at this
              simpa using this
            have h6statlen : c6.statEvents.length ≤ 1 := by
              have := hfacts6.2.2.1
              rw [h5stat] at this
              simpa using this
            have h6any : q.qtype = TypeANY → env.conf.refuseAny = true →
                c6.logEvents = [] := by
              intro hA hR
              have hcond : 1 ≤ c5.req.question.length ∧ q0type c5.req = TypeANY ∧
                  env.conf.refuseAny = true := by
                refine ⟨?_, by rw [h5q0t, hA], hR⟩
                rw [h5len, hq]
                simp
              exact (hfacts6.2.2.2 hcond).trans h5log
            simp only [h6]
            cases hc6res : c6.res with
            | some rr =>
              exact ⟨h6loglen, h6statlen, fun hne => absurd rfl hne, h6any⟩
            | none =>
              exact ⟨h6loglen, h6statlen, fun hne => absurd rfl hne, h6any⟩

/-- Counterexample to C5 as stated: an ANY request under `RefuseAny`
produces no query-log entry, yet the statistics sink is still updated
once — the stats update is not guarded by the ANY/RefuseAny condition. -/
theorem c5_any_refuseany_stats_still_updated :
    envRefuseAny.conf.refuseAny = true
    ∧ q0type reqANYq = TypeANY
    ∧ (handleDNSRequest envRefuseAny reqANYq none).1.logEvents = []
    ∧ (handleDNSRequest envRefuseAny reqANYq none).1.statEvents.length = 1 := by
  exact ⟨rfl, rfl, rfl, rfl⟩

/-- Witness for the amended C5: on the baseline pipeline run the log and
stats bounds hold concretely. -/
theorem c5_logging_amended_witness :
    (handleDNSRequest envRefuseAny reqANYq none).1.logEvents.length ≤ 1
    ∧ (handleDNSRequest envRefuseAny reqANYq none).1.logEvents = [] := by
  have h := c5_logging_amended envRefuseAny reqANYq none
    { name := "x.example.", qtype := 255, qclass := 1 } [] rfl
    (fun hh tt fr hchk => by
      cases hchk
      intro hrw
      cases hrw)
  exact ⟨h.1, h.2.2.2 rfl rfl⟩

/-- `filterDNSRequest` on an unfiltered canonical-name rewrite verdict
with an empty IP list: the original question is saved and the question
name is rewritten to the canonical name. -/
theorem filterDNSRequest_rewrite (env : Env) (ctx : Ctx) (fr : FilterResult)
    (hch : env.checkHost (trimSuffix (q0name ctx.req) ".") (q0type ctx.req) = .ok fr)
    (hnf : fr.isFiltered = false) (hrw : fr.reason = .reasonRewrite)
    (hip : fr.ipList = []) (hcne : fr.canonName ≠ "") :
    filterDNSRequest env ctx = .ok (fr,
      { ctx with
          origQuestion :=
            match ctx.req.question with
            | [] => { name := "", qtype := 0, qclass := 0 }
            | q :: _ => q,
          req := ctx.req.setQ0Name (fqdn fr.canonName) }) := by
  unfold filterDNSRequest
  dsimp only
  rw [hch]
  dsimp only
  rw [if_neg (by rw [hnf]; exact Bool.false_ne_true),
    if_neg (show ¬((fr.reason = .reasonRewrite ∨ fr.reason = .rewriteEtcHosts) ∧
        fr.ipList ≠ []) from fun hc => hc.2 hip),
    if_pos ⟨hrw, hcne⟩]

/-- Stage 2 under enabled protection wraps `filterDNSRequest`'s outcome
into the context. -/
theorem processFilteringBeforeRequest_on (env : Env) (ctx : Ctx) (fr : FilterResult)
    (ctx' : Ctx) (hpe : env.conf.protectionEnabled = true) (hflt : env.hasFilter = true)
    (hfd : filterDNSRequest env { ctx with protectionEnabled := true } = .ok (fr, ctx')) :
    processFilteringBeforeRequest env ctx = ({ ctx' with result := fr }, .done) := by
  unfold processFilteringBeforeRequest
  dsimp only
  rw [hpe, hflt]
  simp only [Bool.and_self]
  rw [if_pos trivial, hfd]

/-- Stage 3 under a constant resolver: the response is installed, the
question section and verdict bookkeeping are untouched, and the
original-DNSSEC flag records exactly `EnableDNSSEC && DO-of-request`. -/
theorem processUpstream_c4 (env : Env) (ctx : Ctx) (uresp : Msg)
    (hres : ∀ m, env.resolve m = .ok uresp) (h0 : ctx.res = none)
    (horig : ctx.origReqDNSSEC = false) :
    ∃ c', processUpstream env ctx = (c', .done)
      ∧ c'.res = some uresp
      ∧ c'.responseFromUpstream = true
      ∧ c'.req.question = ctx.req.question
      ∧ c'.result = ctx.result
      ∧ c'.origQuestion = ctx.origQuestion
      ∧ c'.origReqDNSSEC = (env.conf.enableDNSSEC && reqDO ctx.req) := by
  unfold processUpstream
  split
  · rename_i hcond
    rw [h0] at hcond
    simp at hcond
  · dsimp only
    by_cases hdn : env.conf.enableDNSSEC = true
    · rw [if_pos hdn]
      cases hed : ctx.req.isEdns0 with
      | none =>
        rw [hres]
        dsimp only
        refine ⟨_, rfl, rfl, rfl, rfl, rfl, rfl, ?_⟩
        show ctx.origReqDNSSEC = _
        rw [horig]
        unfold reqDO
        rw [hed, hdn]
        rfl
      | some p =>
        rcases p with ⟨sz, d⟩
        cases d with
        | false =>
          rw [hres]
          dsimp only
          refine ⟨_, rfl, rfl, rfl, rfl, rfl, rfl, ?_⟩
          show ctx.origReqDNSSEC = _
          rw [horig]
          unfold reqDO
          rw [hed, hdn]
          rfl
        | true =>
          rw [hres]
          dsimp only
          refine ⟨_, rfl, rfl, rfl, rfl, rfl, rfl, ?_⟩
          show true = _
          unfold reqDO
          rw [hed, hdn]
          rfl
    · have hdn' : env.conf.enableDNSSEC = false := by
        revert hdn
        cases env.conf.enableDNSSEC <;> simp
      rw [if_neg hdn]
      rw [hres]
      dsimp only
      refine ⟨_, rfl, rfl, rfl, rfl, rfl, rfl, ?_⟩
      show ctx.origReqDNSSEC = _
      rw [horig, hdn']
      rfl

/-- Stage 4 computes exactly the `scrubIfNeeded` transformation of the
upstream response. -/
theorem processDNSSECAfterResponse_c4 (env : Env) (ctx : Ctx) (uresp : Msg)
    (hr : ctx.res = some uresp) (hup : ctx.responseFromUpstream = true) :
    processDNSSECAfterResponse env ctx =
      ({ ctx with
          res := some (scrubIfNeeded env.conf.enableDNSSEC ctx.origReqDNSSEC uresp) },
        .done) := by
  unfold processDNSSECAfterResponse scrubIfNeeded
  by_cases hdn : env.conf.enableDNSSEC = true
  · rw [if_neg (show ¬(¬ctx.responseFromUpstream = true ∨ ¬env.conf.enableDNSSEC = true)
      from fun hc => hc.elim (fun hc1 => hc1 hup) (fun hc2 => hc2 hdn))]
    rw [if_neg (not_not_intro hdn)]
    dsimp only
    rw [hr]
    simp only [Option.getD_some]
    by_cases hskip : ¬ctx.origReqDNSSEC = true ∧ uresp.isEdns0.isSome = true ∧
        (uresp.isEdns0.map Prod.snd).getD false = true
    · rw [if_pos hskip, if_pos hskip, ← hr]
    · rw [if_neg hskip, if_neg hskip]
  · have hdn' : env.conf.enableDNSSEC = false := by
      revert hdn
      cases env.conf.enableDNSSEC <;> simp
    rw [if_pos (Or.inr hdn)]
    rw [if_pos (show ¬env.conf.enableDNSSEC = true from hdn), ← hr]

/-- The answer and question sections `scrubIfNeeded` yields, when the
original-DNSSEC flag is `enable && rdo`. -/
theorem scrub_answer_eq (enable rdo : Bool) (m : Msg) :
    (scrubIfNeeded enable (enable && rdo) m).answer =
      (if enable = true then
        (if rdo = false ∧ reqDO m = true then m.answer else stripRRSIG m.answer)
      else m.answer)
    ∧ (scrubIfNeeded enable (enable && rdo) m).question = m.question := by
  unfold scrubIfNeeded reqDO
  cases enable with
  | false => simp
  | true =>
    simp only [Bool.true_and, Bool.not_eq_true, if_neg (not_not_intro rfl)]
    cases rdo with
    | false =>
      cases hed : m.isEdns0 with
      | none => simp [hed]
      | some p =>
        rcases p with ⟨sz, d⟩
        cases d <;> simp [hed]
    | true =>
      cases hed : m.isEdns0 with
      | none => simp [hed]
      | some p =>
        rcases p with ⟨sz, d⟩
        cases d <;> simp [hed]

/-- Stage 5 on a canonical-name rewrite verdict: the question of the
request and of the response are restored from the saved original
question, and a CNAME is prepended when the answer section is
non-empty. -/
theorem processFilteringAfterResponse_rewrite (env : Env) (ctx : Ctx) (m : Msg)
    (hrw : ctx.result.reason = .reasonRewrite) (hcn : ctx.result.canonName ≠ "")
    (hr : ctx.res = some m) :
    processFilteringAfterResponse env ctx =
      ({ ctx with
          req := ctx.req.setQ0 ctx.origQuestion,
          res := some (
            if (m.setQ0 ctx.origQuestion).answer ≠ [] then
              { m.setQ0 ctx.origQuestion with
                  answer := genCNAMEAnswer env.conf (ctx.req.setQ0 ctx.origQuestion)
                    ctx.result.canonName :: (m.setQ0 ctx.origQuestion).answer }
            else m.setQ0 ctx.origQuestion) }, .done) := by
  unfold processFilteringAfterResponse
  rw [hrw]
  dsimp only
  rw [if_neg hcn, hr]
  simp only [Option.getD_some]

/-- Stage 6 only appends to the event logs: request, response and all
verdict bookkeeping are untouched, and the result is always Done. -/
theorem processQueryLogsAndStats_frame (env : Env) (ctx : Ctx) :
    ∃ lg st hk, processQueryLogsAndStats env ctx =
      ({ ctx with logEvents := lg, statEvents := st, hookEvents := hk }, .done) := by
  unfold processQueryLogsAndStats updateStatsEntry
  dsimp only
  repeat' split
  all_goals exact ⟨_, _, _, rfl⟩

/-- Claim C4: for a request whose verdict is an unfiltered
canonical-name rewrite (`ReasonRewrite`, non-empty `canon_name`, empty
`ip_list`), stage 2 rewrites the question to the canonical name before
the upstream call, and the returned response carries the original
question again (round-trip restoration), with a CNAME from the original
name to the canonical name prepended exactly when the (possibly
DNSSEC-scrubbed) upstream answer section is non-empty. -/
theorem c4_rewrite_roundtrip (env : Env) (req : Msg) (addr : Option NetAddr)
    (q : Question) (qs : List Question) (fr : FilterResult) (uresp : Msg) (cn : String)
    (hq : req.question = q :: qs)
    (hgate1 : ¬(env.conf.aaaaDisabled = true ∧ q.qtype = TypeAAAA))
    (hgate2 : ¬((q.qtype = TypeA ∨ q.qtype = TypeAAAA) ∧
        q.name = "use-application-dns.net."))
    (hpe : env.conf.protectionEnabled = true) (hflt : env.hasFilter = true)
    (hch : env.checkHost (trimSuffix q.name ".") q.qtype = .ok fr)
    (hnf : fr.isFiltered = false) (hrw : fr.reason = .reasonRewrite)
    (hip : fr.ipList = []) (hcn : fr.canonName = cn) (hcne : cn ≠ "")
    (hres : ∀ m, env.resolve m = .ok uresp)
    (huq : uresp.question ≠ []) :
    ∃ r, (handleDNSRequest env req addr).1.res = some r
      ∧ r.question = q :: uresp.question.tail
      ∧ (handleDNSRequest env req addr).1.req.question = q :: qs
      ∧ r.answer =
          (if (if env.conf.enableDNSSEC = true then
                (if reqDO req = false ∧ reqDO uresp = true then uresp.answer
                 else stripRRSIG uresp.answer)
               else uresp.answer) = [] then []
           else RR.cname { name := q.name, rrtype := TypeCNAME, rrclass := ClassINET, ttl := env.conf.blockedResponseTTL } (fqdn cn) ::
             (if env.conf.enableDNSSEC = true then
                (if reqDO req = false ∧ reqDO uresp = true then uresp.answer
                 else stripRRSIG uresp.answer)
              else uresp.answer)) := by
  have hq0t : q0type req = q.qtype := by simp [q0type, hq]
  have hq0n : q0name req = q.name := by simp [q0name, hq]
  have hreq0 : (initCtx req addr).req = req := rfl
  -- stage 1 passes the request through
  have h1 : processInitial env (initCtx req addr) = (initCtx req addr, .done) := by
    unfold processInitial
    rw [if_neg (show ¬(env.conf.aaaaDisabled = true ∧
        q0type (initCtx req addr).req = TypeAAAA) from fun hc =>
        hgate1 ⟨hc.1, by rw [hreq0, hq0t] at hc; exact hc.2⟩)]
    rw [if_neg (show ¬((q0type (initCtx req addr).req = TypeA ∨
        q0type (initCtx req addr).req = TypeAAAA) ∧
        q0name (initCtx req addr).req = "use-application-dns.net.") from fun hc => by
      rw [hreq0, hq0t, hq0n] at hc
      exact hgate2 hc)]
  -- stage 2 takes the canonical-name question-rewrite branch
  have hch2 : env.checkHost
      (trimSuffix (q0name ({ initCtx req addr with
        protectionEnabled := true } : Ctx).req) ".")
      (q0type ({ initCtx req addr with protectionEnabled := true } : Ctx).req) =
      .ok fr := by
    rw [show q0name ({ initCtx req addr with protectionEnabled := true } : Ctx).req =
        q.name from hq0n,
      show q0type ({ initCtx req addr with protectionEnabled := true } : Ctx).req =
        q.qtype from hq0t]
    exact hch
  have hfd := filterDNSRequest_rewrite env
    { initCtx req addr with protectionEnabled := true } fr hch2 hnf hrw hip
    (by rw [hcn]; exact hcne)
  have h2 := processFilteringBeforeRequest_on env (initCtx req addr) fr _ hpe hflt hfd
  rcases h2p : processFilteringBeforeRequest env (initCtx req addr) with ⟨c2, r2⟩
  rw [h2p] at h2
  injection h2 with hc2 hr2
  subst hr2
  have hc2res0 : c2.res = none := by rw [hc2]; try rfl
  have hc2odn : c2.origReqDNSSEC = false := by rw [hc2]; try rfl
  have hc2resu : c2.result = fr := by rw [hc2]; try rfl
  have hc2do : reqDO c2.req = reqDO req := by rw [hc2]; try rfl
  have hc2orig : c2.origQuestion = q := by
    rw [hc2]
    dsimp only [initCtx]
    rw [hq]
  have hc2qlist : c2.req.question = { q with name := fqdn cn } :: qs := by
    rw [hc2, hcn]
    unfold Msg.setQ0Name
    dsimp only [initCtx]
    rw [hq]
  -- stage 3 resolves the rewritten question
  obtain ⟨c3, h3, h3res, h3up, h3q, h3result, h3orig, h3odn⟩ :=
    processUpstream_c4 env c2 uresp hres hc2res0 hc2odn
  have h3resultfr : c3.result = fr := h3result.trans hc2resu
  have h3origq : c3.origQuestion = q := h3orig.trans hc2orig
  have h3odn' : c3.origReqDNSSEC = (env.conf.enableDNSSEC && reqDO req) := by
    rw [h3odn, hc2do]
  have h3qlist : c3.req.question = { q with name := fqdn cn } :: qs :=
    h3q.trans hc2qlist
  -- stage 4 scrubs (or not)
  have h4 := processDNSSECAfterResponse_c4 env c3 uresp h3res h3up
  set sm := scrubIfNeeded env.conf.enableDNSSEC c3.origReqDNSSEC uresp with hsm
  have hsm2 : sm = scrubIfNeeded env.conf.enableDNSSEC
      (env.conf.enableDNSSEC && reqDO req) uresp := by
    rw [hsm, h3odn']
  have hsmq : sm.question = uresp.question := by
    rw [hsm2]
    exact (scrub_answer_eq _ _ _).2
  have hsma : sm.answer =
      (if env.conf.enableDNSSEC = true then
        (if reqDO req = false ∧ reqDO uresp = true then uresp.answer
         else stripRRSIG uresp.answer)
      else uresp.answer) := by
    rw [hsm2]
    exact (scrub_answer_eq _ _ _).1
  set c4 : Ctx := { c3 with res := some sm } with hc4
  have hc4res : c4.res = some sm := by rw [hc4]
  have hc4rw : c4.result.reason = .reasonRewrite := by
    rw [hc4]
    dsimp only
    rw [h3resultfr]
    exact hrw
  have hc4cn : c4.result.canonName ≠ "" := by
    rw [hc4]
    dsimp only
    rw [h3resultfr, hcn]
    exact hcne
  have hc4canon : c4.result.canonName = cn := by
    rw [hc4]
    dsimp only
    rw [h3resultfr, hcn]
  have hc4origq : c4.origQuestion = q := by
    rw [hc4]
    dsimp only
    exact h3origq
  have hc4qlist : c4.req.question = { q with name := fqdn cn } :: qs := by
    rw [hc4]
    dsimp only
    exact h3qlist
  -- stage 5 restores the question and prepends the CNAME
  have h5 := processFilteringAfterResponse_rewrite env c4 sm hc4rw hc4cn hc4res
  rcases h5p : processFilteringAfterResponse env c4 with ⟨c5, r5⟩
  rw [h5p] at h5
  injection h5 with hc5 hr5
  subst hr5
  have hreq5 : c5.req = c4.req.setQ0 c4.origQuestion := by rw [hc5]
  have hreq5q : c5.req.question = q :: qs := by
    rw [hreq5]
    unfold Msg.setQ0
    dsimp only
    rw [hc4qlist]
    dsimp only
    rw [hc4origq]
  -- stage 6 frame
  obtain ⟨lg, st, hk, h6⟩ := processQueryLogsAndStats_frame env c5
  -- drive the whole pipeline
  unfold handleDNSRequest
  simp only [stages, runStages, h1, h2p, h3, h4, h5p, h6]
  cases h5res : c5.res with
  | none =>
    rw [hc5] at h5res
    dsimp only at h5res
    cases h5res
  | some r5m =>
    have hIF := Option.some.inj (by rw [← h5res, hc5] :
      some r5m = ({ c4 with
          req := c4.req.setQ0 c4.origQuestion,
          res := some (
            if (sm.setQ0 c4.origQuestion).answer ≠ [] then
              { sm.setQ0 c4.origQuestion with
                  answer := genCNAMEAnswer env.conf (c4.req.setQ0 c4.origQuestion)
                    c4.result.canonName :: (sm.setQ0 c4.origQuestion).answer }
            else sm.setQ0 c4.origQuestion) } : Ctx).res)
    try dsimp only
    obtain ⟨u0, utail, hu⟩ : ∃ u0 utail, uresp.question = u0 :: utail := by
      cases hqq : uresp.question with
      | nil => exact absurd hqq huq
      | cons a b => exact ⟨a, b, rfl⟩
    have hsq : (sm.setQ0 c4.origQuestion).answer = sm.answer := rfl
    have hsmqu : (sm.setQ0 c4.origQuestion).question = q :: utail := by
      unfold Msg.setQ0
      dsimp only
      rw [hsmq, hu]
      dsimp only
      rw [hc4origq]
    refine ⟨{ r5m with compress := true }, rfl, ?_, ?_, ?_⟩
    · show r5m.question = q :: uresp.question.tail
      rw [hu]
      simp only [List.tail_cons]
      rw [hIF]
      split
      · dsimp only
        exact hsmqu
      · exact hsmqu
    · show c5.req.question = q :: qs
      exact hreq5q
    · show r5m.answer = _
      rw [hIF]
      by_cases hA : (if env.conf.enableDNSSEC = true then
          (if reqDO req = false ∧ reqDO uresp = true then uresp.answer
           else stripRRSIG uresp.answer)
          else uresp.answer) = []
      · rw [if_pos hA,
          if_neg (show ¬((sm.setQ0 c4.origQuestion).answer ≠ []) from by
            rw [hsq, hsma, hA]
            exact not_not_intro rfl)]
        rw [hsq, hsma, hA]
      · rw [if_neg hA,
          if_pos (show (sm.setQ0 c4.origQuestion).answer ≠ [] from by
            rw [hsq, hsma]
            exact hA)]
        dsimp only
        rw [hsq, hsma]
        congr 1
        unfold genCNAMEAnswer
        rw [hc4canon]
        have hq0n5 : q0name (c4.req.setQ0 c4.origQuestion) = q.name := by
          unfold q0name
          rw [show (c4.req.setQ0 c4.origQuestion).question = q :: qs from by
            rw [← hreq5]
            exact hreq5q]
        rw [hq0n5]

/-- Witness for C4: `alias.corp. A` rewritten to `real.corp`, resolved
upstream, comes back with its original question restored. -/
theorem c4_rewrite_roundtrip_witness :
    ∃ r, (handleDNSRequest envRW reqAlias none).1.res = some r
      ∧ r.question = [{ name := "alias.corp.", qtype := 1, qclass := 1 }]
      ∧ (handleDNSRequest envRW reqAlias none).1.req.question =
          [{ name := "alias.corp.", qtype := 1, qclass := 1 }] := by
  obtain ⟨r, h1, h2, h3, h4⟩ := c4_rewrite_roundtrip envRW reqAlias none
    { name := "alias.corp.", qtype := 1, qclass := 1 } [] frRewrite urespRW "real.corp"
    rfl (by decide) (by decide) rfl rfl rfl rfl rfl rfl rfl (by decide)
    (fun m => rfl) (by decide)
  exact ⟨r, h1, by rw [h2]; rfl, h3⟩

end DnsFwd
